import Mathlib

/-!
# Verification of the metamatiob dashboard-cloning core

A shallow embedding, in Lean 4, of the data model and the operations of the
`metabase_utils` package (`database_fields.py` and `clone_dashboard.py`):
the schema entities (`Field`, `Table`, `Database`), the structural table
hash built on an accumulating SHA-256 object, the field matcher, the JSON
integer-key round trip, the query remapper, the table pre-check and the
SQL text substitutions.  Python `dict`s are modelled by insertion-ordered
association lists, Python exceptions by an `Except` monad, and Python's
arbitrary-precision integers by `Nat`/`Int`.
-/

set_option autoImplicit false

namespace Metamatiob

/-- The Python exception classes raised by the embedded code
(`ElementNotFound` is the package's own exception type). -/
inductive PyErr where
  | typeError
  | keyError
  | attributeError
  | indexError
  | nameError
  | valueError
  | elementNotFound
  deriving DecidableEq, Repr

instance {ε α : Type} [DecidableEq ε] [DecidableEq α] : DecidableEq (Except ε α) := fun x y =>
  match x, y with
  | .error a, .error b =>
    if h : a = b then .isTrue (congrArg Except.error h)
    else .isFalse fun hh => h (by cases hh; rfl)
  | .ok a, .ok b =>
    if h : a = b then .isTrue (congrArg Except.ok h)
    else .isFalse fun hh => h (by cases hh; rfl)
  | .error _, .ok _ => .isFalse fun hh => Except.noConfusion hh
  | .ok _, .error _ => .isFalse fun hh => Except.noConfusion hh

/-! ## Insertion-ordered association lists (the model of Python `dict`) -/

section Assoc

variable {κ : Type} {α : Type} [DecidableEq κ]

/-- `d.get(k)` / `d[k]`: first binding of the key, scanning left to right. -/
def alookup : List (κ × α) → κ → Option α
  | [], _ => none
  | (k, v) :: rest, a => if k = a then some v else alookup rest a

/-- `d[k] = v`: replace the value at the first occurrence of the key,
keeping its position, or append a fresh binding (CPython dict semantics). -/
def aset : List (κ × α) → κ → α → List (κ × α)
  | [], a, v => [(a, v)]
  | (k, w) :: rest, a, v => if k = a then (k, v) :: rest else (k, w) :: aset rest a v

/-- Apply `f` to the value stored at key `a`, if present. -/
def aupdate (f : α → α) : List (κ × α) → κ → List (κ × α)
  | [], _ => []
  | (k, w) :: rest, a => if k = a then (k, f w) :: rest else (k, w) :: aupdate f rest a

@[simp] theorem alookup_nil (a : κ) : alookup ([] : List (κ × α)) a = none := rfl

theorem alookup_cons (k : κ) (v : α) (rest : List (κ × α)) (a : κ) :
    alookup ((k, v) :: rest) a = if k = a then some v else alookup rest a := rfl

theorem alookup_append (l₁ l₂ : List (κ × α)) (a : κ) :
    alookup (l₁ ++ l₂) a = ((alookup l₁ a).orElse fun _ => alookup l₂ a) := by
  induction l₁ with
  | nil => simp [alookup, Option.orElse]
  | cons p rest ih =>
    obtain ⟨k, v⟩ := p
    by_cases h : k = a <;> simp [alookup, h, ih, Option.orElse]

theorem alookup_aset_ne (l : List (κ × α)) (a b : κ) (v : α) (h : a ≠ b) :
    alookup (aset l a v) b = alookup l b := by
  induction l with
  | nil => simp [aset, alookup, h]
  | cons p rest ih =>
    obtain ⟨k, w⟩ := p
    by_cases hk : k = a
    · subst hk; simp [aset, alookup, h]
    · simp [aset, hk, alookup, ih]

theorem alookup_aupdate_ne (f : α → α) (l : List (κ × α)) (a b : κ) (h : a ≠ b) :
    alookup (aupdate f l a) b = alookup l b := by
  induction l with
  | nil => simp [aupdate, alookup]
  | cons p rest ih =>
    obtain ⟨k, w⟩ := p
    by_cases hk : k = a
    · subst hk; simp [aupdate, alookup, h]
    · simp [aupdate, hk, alookup, ih]

theorem alookup_aupdate_eq (f : α → α) (l : List (κ × α)) (a : κ) :
    alookup (aupdate f l a) a = (alookup l a).map f := by
  induction l with
  | nil => simp [aupdate, alookup]
  | cons p rest ih =>
    obtain ⟨k, w⟩ := p
    by_cases hk : k = a
    · subst hk; simp [aupdate, alookup]
    · simp [aupdate, hk, alookup, ih]

end Assoc

/-! ## Schema entities (`database_fields.py`)

`Field` and `Table` are the `@dataclass` definitions.  A Python `Table`
object carries, besides its dataclass attributes, the private
`self.__hashfunction = hashlib.sha256()` created by `__post_init__`;
that digest object is stateful, so the embedding records the list of
bytes fed to it so far (`hashAccum`, empty on a freshly built table). -/

structure Field where
  id : Int
  name : String
  display_name : String
  base_type : String
  deriving DecidableEq, Repr

structure Table where
  id : Int
  schema : String
  name : String
  display_name : String
  fields : List Field
  /-- Bytes already consumed by the private `hashlib.sha256()` object. -/
  hashAccum : List Nat
  deriving DecidableEq, Repr

/-! ## SHA-256 (the `hashlib.sha256` digest), on `Nat` words mod `2 ^ 32` -/

/-- Truncate to a 32-bit word. -/
def w32 (n : Nat) : Nat := n % 4294967296

/-- Right rotation of a 32-bit word. -/
def rotr (k x : Nat) : Nat := x / 2 ^ k + x % 2 ^ k * 2 ^ (32 - k)

/-- Logical right shift. -/
def shr (k x : Nat) : Nat := x / 2 ^ k

/-- Bitwise complement of a 32-bit word (for `x < 2 ^ 32`). -/
def not32 (x : Nat) : Nat := 4294967295 - x

def bsig0 (x : Nat) : Nat := rotr 2 x ^^^ rotr 13 x ^^^ rotr 22 x
def bsig1 (x : Nat) : Nat := rotr 6 x ^^^ rotr 11 x ^^^ rotr 25 x
def ssig0 (x : Nat) : Nat := rotr 7 x ^^^ rotr 18 x ^^^ shr 3 x
def ssig1 (x : Nat) : Nat := rotr 17 x ^^^ rotr 19 x ^^^ shr 10 x
def chf (e f g : Nat) : Nat := e &&& f ^^^ not32 e &&& g
def majf (a b c : Nat) : Nat := a &&& b ^^^ a &&& c ^^^ b &&& c

/-- The eight working variables of the compression function. -/
structure Hash8 where
  a : Nat
  b : Nat
  c : Nat
  d : Nat
  e : Nat
  f : Nat
  g : Nat
  h : Nat
  deriving DecidableEq, Repr

/-- SHA-256 initial state (the standard `H0` words, in decimal). -/
def sha256IV : Hash8 :=
  ⟨1779033703, 3144134277, 1013904242, 2773480762,
   1359893119, 2600822924, 528734635, 1541459225⟩

/-- The 64 standard SHA-256 round constants, in decimal. -/
def sha256K : List Nat :=
  [1116352408, 1899447441, 3049323471, 3921009573,
   961987163, 1508970993, 2453635748, 2870763221,
   3624381080, 310598401, 607225278, 1426881987,
   1925078388, 2162078206, 2614888103, 3248222580,
   3835390401, 4022224774, 264347078, 604807628,
   770255983, 1249150122, 1555081692, 1996064986,
   2554220882, 2821834349, 2952996808, 3210313671,
   3336571891, 3584528711, 113926993, 338241895,
   666307205, 773529912, 1294757372, 1396182291,
   1695183700, 1986661051, 2177026350, 2456956037,
   2730485921, 2820302411, 3259730800, 3345764771,
   3516065817, 3600352804, 4094571909, 275423344,
   430227734, 506948616, 659060556, 883997877,
   958139571, 1322822218, 1537002063, 1747873779,
   1955562222, 2024104815, 2227730452, 2361852424,
   2428436474, 2756734187, 3204031479, 3329325298]

/-- One round of the compression function. -/
def compressStep (st : Hash8) (kw : Nat × Nat) : Hash8 :=
  let t1 := w32 (st.h + bsig1 st.e + chf st.e st.f st.g + kw.1 + kw.2)
  let t2 := w32 (bsig0 st.a + majf st.a st.b st.c)
  ⟨w32 (t1 + t2), st.a, st.b, st.c, w32 (st.d + t1), st.e, st.f, st.g⟩

/-- Big-endian 32-bit words from a byte list (length a multiple of 4). -/
def toWords : List Nat → List Nat
  | b1 :: b2 :: b3 :: b4 :: rest => (((b1 * 256 + b2) * 256 + b3) * 256 + b4) :: toWords rest
  | _ => []

/-- Message-schedule extension; `acc` holds the words produced so far,
newest first, and `n` counts the remaining extension steps. -/
def extendW : Nat → List Nat → List Nat
  | 0, acc => acc.reverse
  | n + 1, acc =>
    let g := fun k => acc.getD k 0
    extendW n (w32 (g 15 + ssig0 (g 14) + g 6 + ssig1 (g 1)) :: acc)

/-- Compress one 64-byte block into the running state. -/
def compressBlock (st : Hash8) (block : List Nat) : Hash8 :=
  let ws := extendW 48 (toWords block).reverse
  let t := (sha256K.zip ws).foldl compressStep st
  ⟨w32 (st.a + t.a), w32 (st.b + t.b), w32 (st.c + t.c), w32 (st.d + t.d),
   w32 (st.e + t.e), w32 (st.f + t.f), w32 (st.g + t.g), w32 (st.h + t.h)⟩

/-- Cut a byte list into 64-byte chunks (`fuel`-driven structural recursion;
the fuel is always at least the list length at the call site). -/
def chunks64F : Nat → List Nat → List (List Nat)
  | 0, _ => []
  | _ + 1, [] => []
  | fuel + 1, l@(_ :: _) => l.take 64 :: chunks64F fuel (l.drop 64)

/-- `k`-byte big-endian encoding of `n`. -/
def natToBytesBE : Nat → Nat → List Nat
  | 0, _ => []
  | k + 1, n => natToBytesBE k (n / 256) ++ [n % 256]

/-- SHA-256 padding: `0x80`, zeros, then the 64-bit bit length. -/
def padMsg (msg : List Nat) : List Nat :=
  msg ++ 128 :: List.replicate ((64 - (msg.length + 9) % 64) % 64) 0
      ++ natToBytesBE 8 (8 * msg.length)

/-- The SHA-256 digest (32 bytes) of a byte list. -/
def sha256 (msg : List Nat) : List Nat :=
  let padded := padMsg msg
  let st := (chunks64F padded.length padded).foldl compressBlock sha256IV
  natToBytesBE 4 st.a ++ natToBytesBE 4 st.b ++ natToBytesBE 4 st.c ++ natToBytesBE 4 st.d ++
  natToBytesBE 4 st.e ++ natToBytesBE 4 st.f ++ natToBytesBE 4 st.g ++ natToBytesBE 4 st.h

/-- `int(digest.hexdigest(), 16)`: the digest read as a big-endian number. -/
def bytesToNat (bs : List Nat) : Nat := bs.foldl (fun acc b => acc * 256 + b) 0

/-! ## `Table.__hash__`

The Python method sorts `self.fields` in place (list `sort`, which uses
`Field.__lt__`, i.e. comparison of the `name` attributes, and is stable),
builds `str(tuple(f.name for f in fields))`, feeds its UTF-8 bytes to the
*persistent* `self.__hashfunction` digest object, and returns the digest
as an integer.  The builtin `hash(...)` then reduces that integer modulo
`2 ^ 61 - 1` whenever it does not fit in a machine `Py_ssize_t`. -/

/-- Python string comparison `a < b`: lexicographic on code points
(`Field.__lt__` compares the `name` attributes this way). -/
def strLt : List Char → List Char → Bool
  | [], [] => false
  | [], _ :: _ => true
  | _ :: _, [] => false
  | a :: as, b :: bs =>
    if a.toNat < b.toNat then true
    else if b.toNat < a.toNat then false
    else strLt as bs

/-- The non-strict order `a ≤ b` induced on field names, i.e. `not (b < a)`;
a stable sort under this relation is exactly Python's `list.sort()`. -/
def fieldLe (a b : Field) : Prop := strLt b.name.data a.name.data = false

instance : DecidableRel fieldLe := fun _ _ => instDecidableEqBool _ _

/-- Stable ascending sort of the field list by `name` (`self.fields.sort()`). -/
def sortFields (l : List Field) : List Field :=
  l.insertionSort fieldLe

/-- One escaped character of a Python string literal, for quote
character `q`.  Field names here are printable, so only the backslash
and the quote character need escaping. -/
def pyEscChar (q c : Char) : String :=
  if c = '\\' then "\\\\" else if c = q then "\\" ++ String.mk [q] else String.mk [c]

/-- Python `repr` of a string: single quotes, unless the string contains
a single quote and no double quote. -/
def pyRepr (s : String) : String :=
  let q : Char :=
    if (s.data.any fun c => c = '\'') && !(s.data.any fun c => c = '"') then '"' else '\''
  String.mk [q] ++ String.join (s.data.map (pyEscChar q)) ++ String.mk [q]

/-- Python `str` of a tuple of strings: `()`, `('a',)`, `('a', 'b')`, … -/
def pyReprNameTuple : List String → String
  | [] => "()"
  | [a] => "(" ++ pyRepr a ++ ",)"
  | names => "(" ++ String.intercalate ", " (names.map pyRepr) ++ ")"

/-- The UTF-8 bytes of a code point. -/
def utf8Bytes (c : Nat) : List Nat :=
  if c < 128 then [c]
  else if c < 2048 then [192 + c / 64, 128 + c % 64]
  else if c < 65536 then [224 + c / 4096, 128 + c / 64 % 64, 128 + c % 64]
  else [240 + c / 262144, 128 + c / 4096 % 64, 128 + c / 64 % 64, 128 + c % 64]

/-- `s.encode()`: the UTF-8 bytes of a string. -/
def strBytes (s : String) : List Nat :=
  (s.data.map fun c => utf8Bytes c.toNat).flatten

/-- `Table.__hash__`: sort the fields in place, feed
`str(tuple(field names))` to the persistent digest, return the digest as
an integer.  The returned table is the mutated object (sorted fields,
grown digest state). -/
def tableHashStep (t : Table) : Nat × Table :=
  let sorted := sortFields t.fields
  let msg := strBytes (pyReprNameTuple (sorted.map Field.name))
  let accum := t.hashAccum ++ msg
  (bytesToNat (sha256 accum), { t with fields := sorted, hashAccum := accum })

/-- CPython's reduction of an arbitrary-precision `__hash__` result to a
machine word: values beyond `Py_ssize_t` are hashed again as integers,
i.e. reduced modulo the Mersenne prime `2 ^ 61 - 1`. -/
def pyHashInt (n : Nat) : Nat :=
  if n < 2 ^ 63 then n else n % (2 ^ 61 - 1)

/-- The builtin `hash(table)`: `Table.__hash__` followed by CPython's
integer reduction; returns the hash and the mutated table. -/
def tableHashCall (t : Table) : Nat × Table :=
  (pyHashInt (tableHashStep t).1, (tableHashStep t).2)

@[simp] theorem tableHashStep_snd_fields (t : Table) :
    (tableHashStep t).2.fields = sortFields t.fields := rfl

@[simp] theorem tableHashStep_snd_hashAccum (t : Table) :
    (tableHashStep t).2.hashAccum =
      t.hashAccum ++ strBytes (pyReprNameTuple ((sortFields t.fields).map Field.name)) := rfl

@[simp] theorem tableHashCall_snd (t : Table) :
    (tableHashCall t).2 = (tableHashStep t).2 := rfl

/-! ## `Database`, `Collection`, `Dashboard`, `MetabaseData` -/

structure Database where
  name : String
  id : Int
  engine : String
  tables : List Table
  deriving DecidableEq, Repr

/-- `Collection`, reduced to the attributes the claims touch. -/
structure Collection where
  id : Int
  name : Option String
  deriving DecidableEq, Repr

/-- `Dashboard`, reduced to the attributes the claims touch. -/
structure Dashboard where
  id : Int
  name : Option String
  collection_id : Option Int
  deriving DecidableEq, Repr

/-! ### The broken lookup helpers (`Database.search_table`, `Table.search_field`)

Both helpers compile the regex `r"{pattern}"` — the `f` prefix is
missing, so the pattern argument is never interpolated and the regex is
the literal text `{pattern}` — and both subscript a dataclass instance
(`element["name"]`), which raises `TypeError: 'Table' object is not
subscriptable` (dataclasses define no `__getitem__`). -/

/-- `element["name"]` on a `Table` dataclass instance: always `TypeError`. -/
def tableSubscript (_t : Table) (_key : String) : Except PyErr String :=
  .error .typeError

/-- `element["name"]` on a `Field` dataclass instance: always `TypeError`. -/
def fieldSubscript (_f : Field) (_key : String) : Except PyErr String :=
  .error .typeError

/-- Does `s` contain `sub` as a contiguous substring (`re.search` on a
regex with no metacharacters)? -/
def strContainsSub (sub : List Char) : List Char → Bool
  | [] => sub.isEmpty
  | cs@(_ :: rest) => sub.isPrefixOf cs || strContainsSub sub rest

/-- `re.search(re.compile(r"{pattern}"), name)`: the missing `f` prefix
means the compiled regex is the literal text `{pattern}` whatever the
`pattern` argument says. -/
def reSearchLiteralBrace (_pattern : String) (name : String) : Bool :=
  strContainsSub "\x7bpattern\x7d".data name.data

/-- `Database.search_table`: scan the tables, raise `KeyError` when the
loop finishes without a match. -/
def Database.search_table (db : Database) (pattern : String) : Except PyErr Table :=
  go db.tables
where
  go : List Table → Except PyErr Table
    | [] => .error .keyError
    | t :: rest => do
      let nm ← tableSubscript t "name"
      if reSearchLiteralBrace pattern nm then .ok t else go rest

/-- `Table.search_field`: same shape over the fields of one table. -/
def Table.search_field (t : Table) (pattern : String) : Except PyErr Field :=
  go t.fields
where
  go : List Field → Except PyErr Field
    | [] => .error .keyError
    | f :: rest => do
      let nm ← fieldSubscript f "name"
      if reSearchLiteralBrace pattern nm then .ok f else go rest

/-- What `Database.search_table` is specified to do.  Modelled from the
spec: "find table by name-matching a pattern, … raising a Not-Found
error if no table matches", only the first match returned.  Shown only
to exhibit the divergence from the code above. -/
def searchTableSpec (db : Database) (pattern : String) : Except PyErr Table :=
  match db.tables.find? fun t => strContainsSub pattern.data t.name.data with
  | some t => .ok t
  | none => .error .keyError

/-- The observable state of a `MetabaseData` instance after
construction: its parsed instance name, the `cached` flag and the three
populated lists. -/
structure MetabaseDataState where
  instance_name : String
  cached : Bool
  databases : List Database
  collections : List Collection
  dashboards : List Dashboard
  deriving DecidableEq, Repr

/-- The `MetabaseData.databases` property: returns the list if it is
truthy, otherwise raises `NameError("No databases defined")`. -/
def MetabaseDataState.databasesProp (st : MetabaseDataState) : Except PyErr (List Database) :=
  match st.databases with
  | [] => .error .nameError
  | l => .ok l

/-- The `MetabaseData.collections` property: `ValueError` on an empty list. -/
def MetabaseDataState.collectionsProp (st : MetabaseDataState) : Except PyErr (List Collection) :=
  match st.collections with
  | [] => .error .valueError
  | l => .ok l

/-- The `MetabaseData.dashboards` property: `ValueError` on an empty list. -/
def MetabaseDataState.dashboardsProp (st : MetabaseDataState) : Except PyErr (List Dashboard) :=
  match st.dashboards with
  | [] => .error .valueError
  | l => .ok l

/-! ## `FieldMatcher` -/

/-- The nested correspondence map
`source database id → destination database id → source field id → destination field id`. -/
abbrev MatchDict := List (Int × List (Int × List (Int × Int)))

/-- `MetabaseData.__eq__` compares instance names; `FieldMatcher.__init__`
stores the result as `self.__same_instance`. -/
def sameInstance (src dst : MetabaseDataState) : Bool :=
  src.instance_name == dst.instance_name

/-- `FieldMatcher.match_tables`: for each source field, the first
destination field with the same name wins (`Field` equality is
name-only); the dict is keyed by source field id. -/
def match_tables (st dt : Table) : List (Int × Int) :=
  st.fields.foldl
    (fun acc sf =>
      match dt.fields.find? fun df => df.name == sf.name with
      | some df => aset acc sf.id df.id
      | none => acc)
    []

/-- `{**a, **b}`: the dict merge in `match_databases` — existing keys
keep their position and are overwritten, new keys are appended. -/
def mergeDict (a b : List (Int × Int)) : List (Int × Int) :=
  b.foldl (fun acc p => aset acc p.1 p.2) a

/-- The inner loop of `match_databases` for one source table: scan the
destination tables; a pair matches when the names are equal (checked
first, short-circuiting) or the two `hash(...)` calls agree — the hash
calls mutate both table objects, so the updated source table and the
updated destination list are threaded through. -/
def matchTablesInner (st : Table) : List Table → List (Int × Int) × Table × List Table
  | [] => ([], st, [])
  | dt :: rest =>
    if st.name == dt.name then
      (match_tables st dt, st, dt :: rest)
    else
      let (h1, st') := tableHashCall st
      let (h2, dt') := tableHashCall dt
      if h1 == h2 then
        (match_tables st' dt', st', dt' :: rest)
      else
        let (m, st'', rest') := matchTablesInner st' rest
        (m, st'', dt' :: rest')

/-- The outer loop of `match_databases` over the source tables,
threading the mutated destination table list. -/
def matchTablesOuter : List Table → List Table → List (Int × Int) × List Table × List Table
  | [], dts => ([], [], dts)
  | st :: srest, dts =>
    let (m, st', dts') := matchTablesInner st dts
    let (m', srest', dts'') := matchTablesOuter srest dts'
    (mergeDict m m', st' :: srest', dts'')

/-- `FieldMatcher.match_databases`: accumulate `match_tables` results
over name- or hash-matched table pairs; returns the field dict and the
two databases with their mutated table objects. -/
def match_databases (s d : Database) : List (Int × Int) × Database × Database :=
  let r := matchTablesOuter s.tables d.tables
  (r.1, { s with tables := r.2.1 }, { d with tables := r.2.2 })

/-- `if match_dict.get(source_element.id) is None: match_dict[...] = {}`. -/
def ensureKey (m : MatchDict) (k : Int) : MatchDict :=
  match alookup m k with
  | none => m ++ [(k, [])]
  | some _ => m

/-- `match_dict[s][d] = v` (the outer key is present, ensured above). -/
def set2 (m : MatchDict) (a b : Int) (v : List (Int × Int)) : MatchDict :=
  aupdate (fun inner => aset inner b v) m a

/-- Two-level lookup in the nested dict. -/
def lookup2 (m : MatchDict) (a b : Int) : Option (List (Int × Int)) :=
  (alookup m a).bind fun inner => alookup inner b

/-- The inner loop of `FieldMatcher.match` for one source database over
all destination databases: `continue` when the pair is the same database
of a same-instance run or the engines differ; otherwise ensure the outer
key and assign `match_databases`.  The mutated source database and
destination list are threaded. -/
def matchDbInner (samei : Bool) (s : Database) :
    List Database → MatchDict → MatchDict × Database × List Database
  | [], acc => (acc, s, [])
  | d :: rest, acc =>
    if samei && s.id == d.id || s.engine != d.engine then
      let r := matchDbInner samei s rest acc
      (r.1, r.2.1, d :: r.2.2)
    else
      let acc₁ := ensureKey acc s.id
      let md := match_databases s d
      let acc₂ := set2 acc₁ s.id d.id md.1
      let r := matchDbInner samei md.2.1 rest acc₂
      (r.1, r.2.1, md.2.2 :: r.2.2)

/-- The outer loop of `FieldMatcher.match` over the source databases. -/
def matchDbOuter (samei : Bool) : List Database → List Database → MatchDict → MatchDict
  | [], _, acc => acc
  | s :: srest, dsts, acc =>
    let r := matchDbInner samei s dsts acc
    matchDbOuter samei srest r.2.2 r.1

/-- The recomputation branch of `FieldMatcher.match`. -/
def computeMatch (src dst : MetabaseDataState) : MatchDict :=
  matchDbOuter (sameInstance src dst) src.databases dst.databases []

/-- `self.__data_source.cache`: attribute access on the *method*
`MetabaseData.cache(self, path, data)` yields a bound method object,
which is always truthy — the code never reads the `cached` property. -/
def cacheMethodTruthy (_st : MetabaseDataState) : Bool := true

/-- The reuse condition as the code evaluates it:
`self.__data_source.cache and self.__data_destination.cache and file_exists`. -/
def reuseConditionCode (src dst : MetabaseDataState) (fileExists : Bool) : Bool :=
  cacheMethodTruthy src && cacheMethodTruthy dst && fileExists

/-- Modelled from the spec: the reuse condition of §4.3 — the persisted
map is reused iff the `field_match.json` file exists *and* both
snapshots report themselves cache-derived (their `cached` property). -/
def reuseConditionSpec (src dst : MetabaseDataState) (fileExists : Bool) : Bool :=
  src.cached && dst.cached && fileExists

/-- `FieldMatcher.match`: load the persisted `field_match.json` (its
deserialized content, when the file exists, is the `persisted` argument)
if the reuse condition holds, else recompute from the two snapshots. -/
def FieldMatcher.match' (src dst : MetabaseDataState) (persisted : Option MatchDict) : MatchDict :=
  if reuseConditionCode src dst persisted.isSome then
    persisted.getD []
  else
    computeMatch src dst

/-! ## Persisting the correspondence map (`FieldMatcher.as_integer`)

`json.dump` turns every integer dict key into its canonical decimal
string; `json.load(..., object_hook=self.as_integer)` parses the file
back and applies `{int(k): v for k, v in x.items()}` to every object,
innermost first.  The JSON text itself round-trips (standard library),
so the embedding works at the value level: string-keyed versus
integer-keyed nested dicts. -/

/-- One decimal digit as a character. -/
def digitChar : Nat → Char
  | 0 => '0' | 1 => '1' | 2 => '2' | 3 => '3' | 4 => '4'
  | 5 => '5' | 6 => '6' | 7 => '7' | 8 => '8' | _ => '9'

/-- One character as a decimal digit, `none` on a non-digit. -/
def charDigit (c : Char) : Option Nat :=
  if '0' ≤ c && c ≤ '9' then some (c.toNat - 48) else none

/-- Canonical decimal string of a natural number (`str(n)`). -/
def pyStrNat (n : Nat) : String :=
  if n = 0 then "0" else String.mk (((Nat.digits 10 n).reverse).map digitChar)

/-- Canonical decimal string of an integer (`str(n)`, the form
`json.dump` uses for integer dict keys). -/
def pyStrInt (n : Int) : String :=
  if n < 0 then "-" ++ pyStrNat n.natAbs else pyStrNat n.natAbs

/-- Option-valued map over a list, failing when any element fails
(`List.mapM` specialized to `Option`, kept first-order so that it
reduces definitionally). -/
def omapM {α β : Type} (f : α → Option β) : List α → Option (List β)
  | [] => some []
  | a :: as =>
    match f a, omapM f as with
    | some b, some bs => some (b :: bs)
    | _, _ => none

/-- Parse a non-empty all-digit character list. -/
def parseDigits (cs : List Char) : Option Nat :=
  match omapM charDigit cs with
  | some ds => if ds.isEmpty then none else some (Nat.ofDigits 10 ds.reverse)
  | none => none

/-- `int(s)` on the canonical decimal strings produced by `json.dump`
(CPython's `int` also strips whitespace and accepts underscores, which
never occur in those keys). -/
def pyIntOfStr (s : String) : Option Int :=
  match s.data with
  | [] => none
  | c :: rest =>
    if c = '-' then (parseDigits rest).map fun n => -(Int.ofNat n)
    else (parseDigits (c :: rest)).map Int.ofNat

/-- `{int(k): v for k, v in x.items()}` — the `as_integer` object hook on
one dict level: parse every key (a failing `int(...)` raises, modelled
as `none`) and rebuild the dict in iteration order; a duplicate integer
key overwrites in place, as in a dict comprehension. -/
def asIntegerLevel {α : Type} (es : List (String × α)) : Option (List (Int × α)) :=
  match omapM (fun p => (pyIntOfStr p.1).map fun k => (k, p.2)) es with
  | some l => some (l.foldl (fun acc p => aset acc p.1 p.2) [])
  | none => none

/-- `json.dump` of the innermost level (field id → field id). -/
def dumpL3 (m : List (Int × Int)) : List (String × Int) :=
  m.map fun p => (pyStrInt p.1, p.2)

/-- `json.dump` of the middle level. -/
def dumpL2 (m : List (Int × List (Int × Int))) : List (String × List (String × Int)) :=
  m.map fun p => (pyStrInt p.1, dumpL3 p.2)

/-- `json.dump` of the persisted correspondence map: every key at every
nesting depth becomes its decimal string. -/
def dumpMatchDict (m : MatchDict) : List (String × List (String × List (String × Int))) :=
  m.map fun p => (pyStrInt p.1, dumpL2 p.2)

/-- `json.load` with the `as_integer` hook on the innermost level. -/
def loadL3 (es : List (String × Int)) : Option (List (Int × Int)) :=
  asIntegerLevel es

/-- `json.load` with the hook on the middle level (the hook fires on the
inner objects first). -/
def loadL2 (es : List (String × List (String × Int))) :
    Option (List (Int × List (Int × Int))) :=
  match omapM (fun p => (loadL3 p.2).map fun v => (p.1, v)) es with
  | some l => asIntegerLevel l
  | none => none

/-- `json.load(f, object_hook=self.as_integer)` on a persisted
correspondence file. -/
def loadMatchDict (es : List (String × List (String × List (String × Int)))) :
    Option MatchDict :=
  match omapM (fun p => (loadL2 p.2).map fun v => (p.1, v)) es with
  | some l => asIntegerLevel l
  | none => none

/-! ## Dashboard cards and queries (`clone_dashboard.py`)

The query dictionaries assembled by `get_info` are JSON objects; the
embedding keeps the keys the claims exercise.  A template-tag dimension
is a JSON array (typically `["dimension", <field id>]` or
`["field", <field id>, …]`), modelled as a list of scalars. -/

/-- A JSON scalar inside a dimension array. -/
inductive JLite where
  | str (s : String)
  | int (n : Int)
  | null
  deriving DecidableEq, Repr

/-- One entry of `dataset_query["native"]["template-tags"]`; only the
optional `"dimension"` array is read by `remap_queries`. -/
structure TemplateTag where
  dimension : Option (List JLite)
  deriving DecidableEq, Repr

/-- `dataset_query["native"]`: the raw SQL text and the template tags. -/
structure NativeQuery where
  query : String
  templateTags : List (String × TemplateTag)
  deriving DecidableEq, Repr

/-- A `dataset_query` object; `native` is `none` when the `"native"` key
is absent (a GUI-built query) and `database` is `.get("database")`. -/
structure DatasetQuery where
  native : Option NativeQuery
  database : Option Int
  deriving DecidableEq, Repr

/-- One card dictionary out of `get_info`: markdown cards have no
`"name"` and no `"dataset_query"` key. -/
structure Card where
  name : Option String
  dataset_query : Option DatasetQuery
  deriving DecidableEq, Repr

/-! ### `remap_queries` -/

/-- `awesome_matching_id_dict[source_database_id][destination_database_id][id]`:
any failure along the chain (missing key, `None` or non-integer subscript)
raises, and the caller catches every exception — modelled as `none`. -/
def lookup3 (m : MatchDict) (sdb : Option Int) (ddb : Int) (idv : JLite) : Option Int :=
  match sdb, idv with
  | some a, JLite.int n =>
    (alookup m a).bind fun m2 => (alookup m2 ddb).bind fun m3 => alookup m3 n
  | _, _ => none

/-- Process one template tag: skip a missing or empty (falsy) dimension;
`id = dimension[1]` is evaluated *outside* the `try`, so a too-short
array raises `IndexError`; the map lookup is inside `try/except
Exception`, a failure logs a warning (the returned id list) and leaves
the dimension unchanged. -/
def remapTag (m : MatchDict) (sdb : Option Int) (ddb : Int) (tg : TemplateTag) :
    Except PyErr (TemplateTag × List JLite) :=
  match tg.dimension with
  | none => .ok (tg, [])
  | some l =>
    if l.isEmpty then .ok (tg, [])
    else
      match l[1]? with
      | none => .error .indexError
      | some idv =>
        match lookup3 m sdb ddb idv with
        | some v => .ok (⟨some (l.set 1 (JLite.int v))⟩, [])
        | none => .ok (tg, [idv])

/-- Process the template tags of one query in order, concatenating the
warnings. -/
def remapTagList (m : MatchDict) (sdb : Option Int) (ddb : Int) :
    List (String × TemplateTag) → Except PyErr (List (String × TemplateTag) × List JLite)
  | [] => .ok ([], [])
  | (k, tg) :: rest => do
    let (tg', w) ← remapTag m sdb ddb tg
    let (rest', ws) ← remapTagList m sdb ddb rest
    .ok ((k, tg') :: rest', w ++ ws)

/-- Process one card: a falsy `dataset_query` is skipped entirely;
otherwise `dataset_query["native"]` raises `KeyError` when missing, the
tags are remapped, and `dataset_query["database"]` is set to the
destination database id unconditionally. -/
def remapCard (m : MatchDict) (ddb : Int) (c : Card) : Except PyErr (Card × List JLite) :=
  match c.dataset_query with
  | none => .ok (c, [])
  | some dq =>
    match dq.native with
    | none => .error .keyError
    | some nq => do
      let (tags', ws) ← remapTagList m dq.database ddb nq.templateTags
      let nq' : NativeQuery := { nq with templateTags := tags' }
      let dq' : DatasetQuery := { dq with native := some nq', database := some ddb }
      .ok ({ c with dataset_query := some dq' }, ws)

/-- `remap_queries`, after the destination database id has been resolved
(`get_database_id`) and the correspondence map obtained from
`FieldMatcher`: rewrite every query in order. -/
def remap_queries (m : MatchDict) (ddb : Int) :
    List (Int × Card) → Except PyErr (List (Int × Card) × List JLite)
  | [] => .ok ([], [])
  | (k, c) :: rest => do
    let (c', ws) ← remapCard m ddb c
    let (rest', ws') ← remap_queries m ddb rest
    .ok ((k, c') :: rest', ws ++ ws')

/-- Well-formedness of one tag for `remap_queries`: a present, non-empty
dimension array has an element at index 1. -/
def tagWF (tg : TemplateTag) : Bool :=
  match tg.dimension with
  | none => true
  | some l => l.isEmpty || 2 ≤ l.length

/-- Well-formedness of one card for `remap_queries`: a present
`dataset_query` carries a `"native"` object whose tags are well-formed. -/
def cardWF (c : Card) : Bool :=
  match c.dataset_query with
  | none => true
  | some dq =>
    match dq.native with
    | none => false
    | some nq => nq.templateTags.all fun p => tagWF p.2

/-! ### `unify_str` / `unify_key_names` -/

/-- Collapse every run of literal spaces to one underscore
(`re.sub(" +", "_", s)`); the flag records whether the previous
character was a space. -/
def collapseSpaces : Bool → List Char → List Char
  | _, [] => []
  | prevSpace, c :: rest =>
    if c = ' ' then
      (if prevSpace then [] else ['_']) ++ collapseSpaces true rest
    else
      c :: collapseSpaces false rest

/-- `unify_str`: substitute space runs, then lowercase (the names in
play are ASCII, where `Char.toLower` agrees with `str.lower`). -/
def unify_str (s : String) : String :=
  String.mk ((collapseSpaces false s.data).map Char.toLower)

/-- `unify_key_names`: rebuild the dict with unified keys (a dict
comprehension, so a later colliding key overwrites in place). -/
def unify_key_names (d : List (String × String)) : List (String × String) :=
  d.foldl (fun acc p => aset acc (unify_str p.1) p.2) []

/-! ### The `FROM` clause regex of `check_tables`

`re.search(r"FROM\s+\W?(\w+|\d+)\W?\s", query)` with Python's
leftmost-then-greedy backtracking semantics.  The `\d+` alternative is
subsumed by `\w+` (digits are word characters), so it never contributes
a match that `\w+` misses. -/

/-- Python `\w` on the ASCII identifiers in play. -/
def isPyWord (c : Char) : Bool := c.isAlphanum || c = '_'

/-- Python `\s` (ASCII): space, tab, newline, carriage return, vertical
tab, form feed. -/
def isPySpace (c : Char) : Bool :=
  c = ' ' || c = '\t' || c = '\n' || c = '\r' || c = '\x0b' || c = '\x0c'

/-- Length of the maximal `\s` run at the head. -/
def spaceRunLen : List Char → Nat
  | [] => 0
  | c :: rest => if isPySpace c then spaceRunLen rest + 1 else 0

/-- Length of the maximal `\w` run at the head. -/
def wordRunLen : List Char → Nat
  | [] => 0
  | c :: rest => if isPyWord c then wordRunLen rest + 1 else 0

/-- Greedy `X+`: try consuming `k` characters, longest first, down
to one. -/
def tryDesc (cs : List Char) (next : List Char → Option String) : Nat → Option String
  | 0 => none
  | k + 1 => (next (cs.drop (k + 1))).orElse fun _ => tryDesc cs next k

/-- Greedy `(\w+)` with the consumed text captured. -/
def tryWordDesc (cs : List Char) (next : String → List Char → Option String) :
    Nat → Option String
  | 0 => none
  | k + 1 =>
    (next (String.mk (cs.take (k + 1))) (cs.drop (k + 1))).orElse fun _ =>
      tryWordDesc cs next k

/-- Greedy optional character class `C?`: consume one matching
character if possible, falling back to the empty match. -/
def tryOptClass (p : Char → Bool) (cs : List Char) (next : List Char → Option String) :
    Option String :=
  match cs with
  | c :: rest => if p c then (next rest).orElse fun _ => next cs else next cs
  | [] => next cs

/-- Match `FROM\s+\W?(\w+|\d+)\W?\s` anchored at the head of `cs`,
returning the captured group. -/
def matchFromAt (cs : List Char) : Option String :=
  if "FROM".data.isPrefixOf cs then
    let rest := cs.drop 4
    tryDesc rest
      (fun cs1 =>
        tryOptClass (fun c => !isPyWord c) cs1 fun cs2 =>
          tryWordDesc cs2
            (fun w cs3 =>
              tryOptClass (fun c => !isPyWord c) cs3 fun cs4 =>
                match cs4 with
                | c :: _ => if isPySpace c then some w else none
                | [] => none)
            (wordRunLen cs2))
      (spaceRunLen rest)
  else none

/-- `re.search`: the leftmost starting position wins. -/
def searchFrom : List Char → Option String
  | [] => none
  | cs@(_ :: rest) => (matchFromAt cs).orElse fun _ => searchFrom rest

/-- `re.search(r"FROM\s+\W?(\w+|\d+)\W?\s", s)` followed by `.group(1)`;
`none` models the `AttributeError` on a missing match. -/
def reSearchFrom (s : String) : Option String := searchFrom s.data

/-! ### `check_tables` and the clone decision point -/

/-- `check_tables`: for every card with a truthy name, extract the
`FROM` table from the raw SQL (an absent match raises `AttributeError`
via `.group(1)`, absent keys raise `KeyError`) and clear the `valid`
flag when its unified name is not among the unified display-name keys of
the destination's `to_name` dict. -/
def checkTablesGo (toName : List (String × String)) :
    List (Int × Card) → Bool → Except PyErr Bool
  | [], valid => .ok valid
  | (_, c) :: rest, valid =>
    match c.name with
    | none => checkTablesGo toName rest valid
    | some nm =>
      if nm = "" then checkTablesGo toName rest valid
      else
        match c.dataset_query with
        | none => .error .keyError
        | some dq =>
          match dq.native with
          | none => .error .keyError
          | some nq =>
            match reSearchFrom nq.query with
            | none => .error .attributeError
            | some tbl =>
              if (unify_key_names toName).any fun p => p.1 = unify_str tbl then
                checkTablesGo toName rest valid
              else
                checkTablesGo toName rest false

/-- `check_tables(metabase_instance, destination_database, queries)`,
with the destination's `table_display_name_to_name(...)["to_name"]`
dict passed in as `toName`. -/
def check_tables (toName : List (String × String)) (queries : List (Int × Card)) :
    Except PyErr Bool :=
  checkTablesGo toName queries true

/-- A destination-side effect of `create_and_link_dashboard`.  Only the
warning is emitted on the abort path; everything else is a write. -/
inductive CloneEvent where
  | warnedCannotCopy
  | createdCollection
  | createdDashboard
  | createdCard (name : String)
  deriving DecidableEq, Repr

/-- The destination writes of `create_new`, coarsely: the two
`get_collection_id(..., create=True)` lookups, the dashboard `POST`, the
questions collection, then one card `POST` per named query
(`populate_cards`); collection creation is conditional on the
destination's existing collections, modelled as always performed. -/
def createNewEvents (qs : List (Int × Card)) : List CloneEvent :=
  CloneEvent.createdCollection :: CloneEvent.createdCollection ::
    CloneEvent.createdDashboard :: CloneEvent.createdCollection ::
    qs.filterMap fun p => p.2.name.map CloneEvent.createdCard

/-- `create_and_link_dashboard` from the `check_tables` call on: when the
check is `False` the function logs `Cannot copy …` and returns with no
destination write; otherwise it remaps the queries and runs `create_new`.
The preceding `get_info` call only reads the source instance. -/
def create_and_link_dashboard (toName : List (String × String)) (m : MatchDict)
    (ddb : Int) (queries : List (Int × Card)) : Except PyErr (List CloneEvent) := do
  let ok ← check_tables toName queries
  if ok = false then
    .ok [CloneEvent.warnedCannotCopy]
  else do
    let (qs', _ws) ← remap_queries m ddb queries
    .ok (createNewEvents qs')

/-! ### `get_clean_queries` and its two `re.sub` rewrites -/

/-- The generic `re.sub` scan: at each position try the anchored
matcher; on a match of `n` characters emit the replacement and resume
after the match, otherwise keep the character.  The fuel starts at the
list length; every step consumes at least one character, so it never
runs out. -/
def subScanF (matchAt : List Char → Option (Nat × List Char)) :
    Nat → List Char → List Char
  | 0, cs => cs
  | _ + 1, [] => []
  | fuel + 1, c :: rest =>
    match matchAt (c :: rest) with
    | some (n, rep) =>
      if n = 0 then c :: subScanF matchAt fuel rest
      else rep ++ subScanF matchAt fuel ((c :: rest).drop n)
    | none => c :: subScanF matchAt fuel rest

/-- `re.sub` over a string. -/
def pySub (matchAt : List Char → Option (Nat × List Char)) (s : String) : String :=
  String.mk (subScanF matchAt s.data.length s.data)

/-- Greedy `` (`)? ``: consume a backtick if present, falling back to the
empty match; the continuation returns the number of further characters
consumed. -/
def optBacktick (cs : List Char) (next : List Char → Option Nat) : Option Nat :=
  match cs with
  | '`' :: rest => ((next rest).map (· + 1)).orElse fun _ => next cs
  | _ => next cs

/-- A literal token. -/
def litStep (lit : List Char) (cs : List Char) (next : List Char → Option Nat) :
    Option Nat :=
  if lit.isPrefixOf cs then (next (cs.drop lit.length)).map (· + lit.length) else none

/-- `.` — any character except a newline. -/
def anyCharStep (cs : List Char) (next : List Char → Option Nat) : Option Nat :=
  match cs with
  | c :: rest => if c = '\n' then none else (next rest).map (· + 1)
  | [] => none

/-- Match ``(`)?<name>(`)?.`` anchored at the head — the first
`re.sub` of `get_clean_queries`, whose unescaped trailing `.` swallows
one arbitrary character after the database name. -/
def matchDbNameAt (name : List Char) (cs : List Char) : Option Nat :=
  optBacktick cs fun cs1 =>
    litStep name cs1 fun cs2 =>
      optBacktick cs2 fun cs3 =>
        anyCharStep cs3 fun _ => some 0

/-- `re.sub(f"(`)?{old_database_name}(`)?.", "", query)`. -/
def pySubDbName (name : String) (s : String) : String :=
  pySub (fun cs => (matchDbNameAt name.data cs).map fun n => (n, [])) s

/-- Variants of the combinators that also carry the captured
`(!?=)` group. -/
def optBacktickP (cs : List Char) (next : List Char → Option (Nat × String)) :
    Option (Nat × String) :=
  match cs with
  | '`' :: rest => ((next rest).map fun p => (p.1 + 1, p.2)).orElse fun _ => next cs
  | _ => next cs

def litStepP (lit : List Char) (cs : List Char) (next : List Char → Option (Nat × String)) :
    Option (Nat × String) :=
  if lit.isPrefixOf cs then
    (next (cs.drop lit.length)).map fun p => (p.1 + lit.length, p.2)
  else none

/-- Greedy `(\s)*`: try `k` characters of the space run, longest first,
down to the empty match. -/
def starDescP (cs : List Char) (next : List Char → Option (Nat × String)) :
    Nat → Option (Nat × String)
  | 0 => next cs
  | k + 1 =>
    ((next (cs.drop (k + 1))).map fun p => (p.1 + (k + 1), p.2)).orElse fun _ =>
      starDescP cs next k

/-- `(!?=)`: the optional `!` is greedy, and when it is taken the `=`
must follow; the group text is captured for the `\2` back-reference. -/
def opStepP (cs : List Char) (next : List Char → Option Nat) : Option (Nat × String) :=
  match cs with
  | '!' :: '=' :: rest => (next rest).map fun n => (n + 2, "!=")
  | '=' :: rest => (next rest).map fun n => (n + 1, "=")
  | _ => none

/-- `(\s)*` on the plain-count side. -/
def starDescN (cs : List Char) (next : List Char → Option Nat) : Nat → Option Nat
  | 0 => next cs
  | k + 1 => ((next (cs.drop (k + 1))).map (· + (k + 1))).orElse fun _ =>
      starDescN cs next k

/-- Length of the maximal `\S` run at the head. -/
def nonspaceRunLen : List Char → Nat
  | [] => 0
  | c :: rest => if isPySpace c then 0 else nonspaceRunLen rest + 1

/-- Backtracking for `[\S]+'`: after `j` non-space characters the next
character must be the closing quote; `j` is tried longest first. -/
def quoteBack (rest : List Char) : Nat → Option Nat
  | 0 => none
  | j + 1 => if rest[j + 1]? = some '\'' then some (j + 1) else quoteBack rest j

/-- `'[\S]+'` anchored at the head: opening quote, at least one
non-space character, closing quote. -/
def quoteTail (cs : List Char) : Option Nat :=
  match cs with
  | '\'' :: rest => (quoteBack rest (nonspaceRunLen rest)).map fun j => j + 2
  | _ => none

/-- Match ``[`]?pm_domain_name[`]?(\s)*(!?=)(\s)*'[\S]+'`` anchored at
the head — length consumed and the captured operator. -/
def matchPmAt (cs : List Char) : Option (Nat × String) :=
  optBacktickP cs fun cs1 =>
    litStepP "pm_domain_name".data cs1 fun cs2 =>
      optBacktickP cs2 fun cs3 =>
        starDescP cs3
          (fun cs4 =>
            opStepP cs4 fun cs5 =>
              starDescN cs5 (fun cs6 => quoteTail cs6) (spaceRunLen cs5))
          (spaceRunLen cs3)

/-- The substitution text `` r"`<col>` \2 '" + client_id + "'" `` with
the operator group spliced in. -/
def pmReplacement (col cid op : String) : List Char :=
  ("`" ++ col ++ "` " ++ op ++ " '" ++ cid ++ "'").data

/-- `re.sub(re_owner, sub_text, query)`: every match of the
`pm_domain_name` predicate pattern is replaced by a predicate on the
column selected by `client_type`, carrying the destination identifier. -/
def pySubPm (col cid : String) (s : String) : String :=
  pySub (fun cs => (matchPmAt cs).map fun p => (p.1, pmReplacement col cid p.2)) s

/-- The per-card body of the `get_clean_queries` loop: the two `re.sub`
rewrites on the raw SQL; a missing key (`dataset_query`, `native`) is a
`KeyError` that the loop catches with `continue`, leaving the card
unchanged. -/
def cleanCard (old col cid : String) (p : Int × Card) : Int × Card :=
  match p.2.dataset_query with
  | none => p
  | some dq =>
    match dq.native with
    | none => p
    | some nq =>
      let nq' : NativeQuery := { nq with query := pySubPm col cid (pySubDbName old nq.query) }
      (p.1, { p.2 with dataset_query := some { dq with native := some nq' } })

/-- `get_clean_queries`: enterprise mode returns the queries untouched;
a missing `client_id` raises `ElementNotFound`; the `match` statement
selects the replacement column (`pm_domain_name` or `owner_id`) and any
other `client_type` raises `ElementNotFound`; then every query's SQL is
rewritten in place. -/
def get_clean_queries (queries : List (Int × Card)) (old_database_name : String)
    (client_type : Option String) (client_id : Option String) :
    Except PyErr (List (Int × Card)) :=
  if client_type = some "enterprise" then .ok queries
  else
    match client_id with
    | none => .error .elementNotFound
    | some cid =>
      match client_type with
      | some "pm_domain_name" =>
        .ok (queries.map (cleanCard old_database_name "pm_domain_name" cid))
      | some "owner_id" =>
        .ok (queries.map (cleanCard old_database_name "owner_id" cid))
      | _ => .error .elementNotFound

/-! # The claims -/

set_option maxRecDepth 100000

/-- Python's string comparison is asymmetric. -/
theorem strLt_asymm : ∀ x y : List Char, strLt x y = true → strLt y x = false
  | [], [] => by simp [strLt]
  | [], _ :: _ => by simp [strLt]
  | _ :: _, [] => by simp [strLt]
  | a :: as, b :: bs => by
    intro h
    by_cases h1 : a.toNat < b.toNat
    · have h2 : ¬ b.toNat < a.toNat := by omega
      simp [strLt, h1, h2]
    · by_cases h2 : b.toNat < a.toNat
      · simp [strLt, h1, h2] at h
      · simp only [strLt, if_neg h1, if_neg h2] at h
        simp only [strLt, if_neg h1, if_neg h2]
        exact strLt_asymm as bs h

/-- The induced `≤` is transitive. -/
theorem strLt_le_trans :
    ∀ x y z : List Char, strLt y x = false → strLt z y = false → strLt z x = false
  | [], y, z => by
    intro _ _
    cases z <;> cases y <;> simp_all [strLt]
  | _ :: _, [], _ => by intro h _; simp [strLt] at h
  | _ :: _, _ :: _, [] => by intro _ h; simp [strLt] at h
  | a :: as, b :: bs, c :: cs => by
    intro h1 h2
    by_cases hba : b.toNat < a.toNat
    · simp [strLt, hba] at h1
    · by_cases hcb : c.toNat < b.toNat
      · simp [strLt, hcb] at h2
      · by_cases hca : c.toNat < a.toNat
        · omega
        · by_cases hac : a.toNat < c.toNat
          · simp [strLt, hca, hac]
          · have hab : ¬ a.toNat < b.toNat := by omega
            have hbc : ¬ b.toNat < c.toNat := by omega
            simp only [strLt, if_neg hba, if_neg hab] at h1
            simp only [strLt, if_neg hcb, if_neg hbc] at h2
            simp only [strLt, if_neg hca, if_neg hac]
            exact strLt_le_trans as bs cs h1 h2

instance : IsTotal Field fieldLe := by
  constructor
  intro a b
  by_cases h : strLt b.name.data a.name.data = true
  · exact Or.inr (strLt_asymm _ _ h)
  · exact Or.inl (by simpa [fieldLe] using h)

instance : IsTrans Field fieldLe :=
  ⟨fun _ _ _ h₁ h₂ => strLt_le_trans _ _ _ h₁ h₂⟩

/-- The encoded name tuple fed to the digest is never empty: the tuple
representation always opens with `(`. -/
theorem strBytes_pyReprNameTuple_ne_nil (l : List String) :
    strBytes (pyReprNameTuple l) ≠ [] := by
  have h : ∃ rest, (pyReprNameTuple l).data = '(' :: rest := by
    match l with
    | [] => exact ⟨[')'], rfl⟩
    | [a] => exact ⟨((pyRepr a).data ++ [',', ')']), by simp [pyReprNameTuple]⟩
    | a :: b :: rest =>
      exact ⟨(String.intercalate ", " ((a :: b :: rest).map pyRepr)).data ++ [')'],
        by simp [pyReprNameTuple]⟩
  obtain ⟨rest, h⟩ := h
  simp [strBytes, h, utf8Bytes]

/-! ## C1 — `Table.__hash__` and permutation of the field list -/

/-- A table with fields `id`, `total` in that order, freshly constructed. -/
def tableC1a : Table :=
  ⟨1, "public", "orders", "Orders",
   [⟨1, "id", "ID", "type/Integer"⟩, ⟨2, "total", "Total", "type/Float"⟩], []⟩

/-- A freshly constructed table with the same field-name set listed in
the other order. -/
def tableC1b : Table :=
  ⟨2, "public", "orders_bis", "Orders bis",
   [⟨3, "total", "Total", "type/Float"⟩, ⟨4, "id", "ID", "type/Integer"⟩], []⟩

/-- **C1.** The claim promises `hash(T1) == hash(T2)` for any two tables
with the same field-name set.  On freshly constructed tables the first
calls indeed agree (first conjunct), but the private `sha256` object
accumulates across calls: after one prior `hash` call on `tableC1a` the
next call feeds the digest a second copy of the name tuple and returns a
different integer than the fresh permuted table (second conjunct) — the
code contradicts the hash/equality contract its own matcher relies on. -/
theorem C1_hash_permutation_state_bug :
    (tableHashCall tableC1a).1 = (tableHashCall tableC1b).1 ∧
    (tableHashCall (tableHashCall tableC1a).2).1 ≠ (tableHashCall tableC1b).1 := by
  decide

/-! ## C8 — statefulness of `Table.__hash__` -/

/-- A table whose single-field list is already sorted by name. -/
def tableC8sorted : Table :=
  ⟨3, "public", "users", "Users", [⟨9, "id", "ID", "type/Integer"⟩], []⟩

/-- **C8 (counterexample).** The claim asserts that *every* `hash()`
call on a table with a non-empty field list mutates the table's
observable field order; on a table whose fields are already name-sorted
the in-place sort leaves the order untouched. -/
theorem C8_counterexample_sorted_fields_unchanged :
    tableC8sorted.fields ≠ [] ∧
    (tableHashCall tableC8sorted).2.fields = tableC8sorted.fields := by
  constructor
  · decide
  · rfl

/-- **C8 (amended).** For every table with a non-empty field list, each
`hash()` call re-sorts the fields in place by name — a permutation of the
original list, nondecreasing in Python's string order, so the observable
order changes exactly when it was not already sorted — and appends the
encoded name tuple to the running SHA-256 input, so a second call digests
a strictly extended byte string; at the attested table the second call
indeed returns a different integer than the first. -/
theorem C8_hash_not_idempotent :
    (∀ t : Table, t.fields ≠ [] →
      (tableHashCall t).2.fields.Sorted fieldLe ∧
      (tableHashCall t).2.fields.Perm t.fields ∧
      ∃ e, e ≠ [] ∧
        (tableHashCall (tableHashCall t).2).2.hashAccum = (tableHashCall t).2.hashAccum ++ e) ∧
    (tableHashCall (tableHashCall tableC8sorted).2).1 ≠ (tableHashCall tableC8sorted).1 := by
  constructor
  · intro t _ht
    refine ⟨?_, ?_, ?_⟩
    · simp only [tableHashCall_snd, tableHashStep_snd_fields, sortFields]
      exact List.sorted_insertionSort fieldLe t.fields
    · simp only [tableHashCall_snd, tableHashStep_snd_fields, sortFields]
      exact List.perm_insertionSort fieldLe t.fields
    · exact ⟨strBytes (pyReprNameTuple ((sortFields (sortFields t.fields)).map Field.name)),
        strBytes_pyReprNameTuple_ne_nil _, by simp⟩
  · decide

/-- Witness for the amended C8 at the concrete two-field table. -/
theorem C8_hash_not_idempotent_witness :
    tableC1a.fields ≠ [] ∧
    ((tableHashCall tableC1a).2.fields.Sorted fieldLe ∧
     (tableHashCall tableC1a).2.fields.Perm tableC1a.fields ∧
     ∃ e, e ≠ [] ∧
       (tableHashCall (tableHashCall tableC1a).2).2.hashAccum =
         (tableHashCall tableC1a).2.hashAccum ++ e) :=
  ⟨by decide, C8_hash_not_idempotent.1 tableC1a (by decide)⟩

/-! ## C2 — reuse of the persisted correspondence file -/

/-- A source snapshot that was *not* cache-derived (`cached = False`). -/
def srcFreshC2 : MetabaseDataState := ⟨"alpha", false, [], [], []⟩

/-- A cache-derived destination snapshot. -/
def dstC2 : MetabaseDataState := ⟨"beta", true, [], [], []⟩

/-- A persisted `field_match.json` content. -/
def persistedC2 : MatchDict := [(7, [(9, [(1, 2)])])]

/-- **C2.** The claim says the persisted map is returned iff the file
exists *and* both snapshots are cache-derived.  The code instead tests
`self.__data_source.cache` — the bound *method* `MetabaseData.cache`,
which is always truthy — so with the file present and the source
snapshot freshly re-fetched (`cached = False`) the code's condition
still holds (first conjunct) while the specified condition does not
(second conjunct), `match` returns the persisted map verbatim (third
conjunct), and that map differs from what a recomputation would give
(fourth conjunct). -/
theorem C2_reuse_ignores_cached_flag :
    reuseConditionCode srcFreshC2 dstC2 true = true ∧
    reuseConditionSpec srcFreshC2 dstC2 true = false ∧
    FieldMatcher.match' srcFreshC2 dstC2 (some persistedC2) = persistedC2 ∧
    computeMatch srcFreshC2 dstC2 ≠ persistedC2 :=
  ⟨by decide, by decide, by decide, by decide⟩

/-! ## C6 — `Database.search_table` / `Table.search_field` -/

/-- A table named `users` with one field `id`. -/
def tableC6 : Table :=
  ⟨10, "public", "users", "Users", [⟨5, "id", "ID", "type/Integer"⟩], []⟩

/-- A database containing `tableC6`. -/
def dbC6 : Database := ⟨"alpha", 1, "postgres", [tableC6]⟩

/-- **C6.** The claim says the helpers return the first table/field whose
name matches the pattern and raise Not-Found exactly when nothing
matches.  The code compiles the literal regex `r"{pattern}"` (the `f`
prefix is missing) and subscripts a dataclass (`element["name"]`), so on
a database that *does* contain a matching table the call raises
`TypeError` instead (first two conjuncts), where the specified behaviour
would return the table (third conjunct). -/
theorem C6_search_helpers_raise_type_error :
    Database.search_table dbC6 "users" = .error .typeError ∧
    Table.search_field tableC6 "id" = .error .typeError ∧
    searchTableSpec dbC6 "users" = .ok tableC6 := by
  decide

/-! ## C10 — the empty-list accessors of `MetabaseData` -/

/-- **C10.** `databases` raises `NameError` and `collections` /
`dashboards` raise `ValueError` whenever the underlying populated list is
empty, and none of three accessors can ever return an empty list. -/
theorem C10_accessors_raise_on_empty (st : MetabaseDataState) :
    (st.databases = [] → st.databasesProp = .error .nameError) ∧
    (st.collections = [] → st.collectionsProp = .error .valueError) ∧
    (st.dashboards = [] → st.dashboardsProp = .error .valueError) ∧
    (∀ l, st.databasesProp = .ok l → l ≠ []) ∧
    (∀ l, st.collectionsProp = .ok l → l ≠ []) ∧
    (∀ l, st.dashboardsProp = .ok l → l ≠ []) := by
  refine ⟨?_, ?_, ?_, ?_, ?_, ?_⟩
  · intro h; simp [MetabaseDataState.databasesProp, h]
  · intro h; simp [MetabaseDataState.collectionsProp, h]
  · intro h; simp [MetabaseDataState.dashboardsProp, h]
  · intro l hl
    cases hd : st.databases with
    | nil => simp [MetabaseDataState.databasesProp, hd] at hl
    | cons a rest =>
      simp only [MetabaseDataState.databasesProp, hd] at hl
      cases hl
      simp
  · intro l hl
    cases hd : st.collections with
    | nil => simp [MetabaseDataState.collectionsProp, hd] at hl
    | cons a rest =>
      simp only [MetabaseDataState.collectionsProp, hd] at hl
      cases hl
      simp
  · intro l hl
    cases hd : st.dashboards with
    | nil => simp [MetabaseDataState.dashboardsProp, hd] at hl
    | cons a rest =>
      simp only [MetabaseDataState.dashboardsProp, hd] at hl
      cases hl
      simp

/-- Witness for C10 at a concrete empty instance state. -/
theorem C10_accessors_raise_on_empty_witness :
    (⟨"x", true, [], [], []⟩ : MetabaseDataState).databasesProp = .error .nameError ∧
    (⟨"x", true, [], [], []⟩ : MetabaseDataState).collectionsProp = .error .valueError :=
  ⟨(C10_accessors_raise_on_empty ⟨"x", true, [], [], []⟩).1 rfl,
   (C10_accessors_raise_on_empty ⟨"x", true, [], [], []⟩).2.1 rfl⟩

/-! ## C9 — the integer-key round trip of the persisted map -/

theorem charDigit_digitChar (d : Nat) (h : d < 10) : charDigit (digitChar d) = some d := by
  interval_cases d <;> decide

theorem digitChar_ne_minus (d : Nat) : digitChar d ≠ '-' := by
  unfold digitChar
  split <;> decide

theorem omapM_charDigit_map_digitChar (ds : List Nat) (h : ∀ d ∈ ds, d < 10) :
    omapM charDigit (ds.map digitChar) = some ds := by
  induction ds with
  | nil => rfl
  | cons d rest ih =>
    have hd : charDigit (digitChar d) = some d := charDigit_digitChar d (h d (by simp))
    have hrest : omapM charDigit (rest.map digitChar) = some rest :=
      ih fun x hx => h x (by simp [hx])
    simp [omapM, hd, hrest]

theorem parseDigits_pyStrNat (n : Nat) : parseDigits (pyStrNat n).data = some n := by
  by_cases h0 : n = 0
  · subst h0; decide
  · have hlt : ∀ d ∈ (Nat.digits 10 n).reverse, d < 10 := by
      intro d hd
      exact Nat.digits_lt_base (by norm_num) (List.mem_reverse.mp hd)
    have hne : Nat.digits 10 n ≠ [] := Nat.digits_ne_nil_iff_ne_zero.mpr h0
    have hmap := omapM_charDigit_map_digitChar _ hlt
    unfold pyStrNat parseDigits
    rw [if_neg h0]
    show (match omapM charDigit ((Nat.digits 10 n).reverse.map digitChar) with
      | some ds => if ds.isEmpty then none else some (Nat.ofDigits 10 ds.reverse)
      | none => none) = some n
    simp only [hmap]
    rw [if_neg (by simp [hne])]
    rw [List.reverse_reverse, Nat.ofDigits_digits]

theorem pyStrNat_head_digit (n : Nat) :
    ∃ c cs, (pyStrNat n).data = c :: cs ∧ c ≠ '-' := by
  by_cases h0 : n = 0
  · exact ⟨'0', [], by subst h0; rfl, by decide⟩
  · have hne : Nat.digits 10 n ≠ [] := Nat.digits_ne_nil_iff_ne_zero.mpr h0
    obtain ⟨d, ds, hds⟩ := List.exists_cons_of_ne_nil (by simpa using hne :
      (Nat.digits 10 n).reverse ≠ [])
    refine ⟨digitChar d, ds.map digitChar, ?_, digitChar_ne_minus d⟩
    unfold pyStrNat
    rw [if_neg h0, hds]
    rfl

theorem pyIntOfStr_pyStrInt (n : Int) : pyIntOfStr (pyStrInt n) = some n := by
  by_cases hneg : n < 0
  · unfold pyStrInt pyIntOfStr
    rw [if_pos hneg]
    have hdd : ("-" ++ pyStrNat n.natAbs).data = '-' :: (pyStrNat n.natAbs).data := by
      simp
    simp only [hdd]
    rw [if_pos trivial]
    rw [parseDigits_pyStrNat]
    show some (-((n.natAbs : Int))) = some n
    congr 1
    omega
  · unfold pyStrInt pyIntOfStr
    rw [if_neg hneg]
    obtain ⟨c, cs, hdata, hc⟩ := pyStrNat_head_digit n.natAbs
    simp only [hdata, if_neg hc]
    rw [← hdata, parseDigits_pyStrNat]
    show some ((n.natAbs : Int)) = some n
    congr 1
    omega

theorem alookup_eq_none_iff {κ α : Type} [DecidableEq κ] (l : List (κ × α)) (k : κ) :
    alookup l k = none ↔ k ∉ l.map Prod.fst := by
  induction l with
  | nil => simp
  | cons p rest ih =>
    obtain ⟨k', v⟩ := p
    by_cases h : k' = k
    · subst h
      simp [alookup]
    · simp only [alookup, if_neg h, ih, List.map_cons, List.mem_cons]
      constructor
      · intro hn hor
        rcases hor with hk | hm
        · exact h hk.symm
        · exact hn hm
      · intro hn hm
        exact hn (Or.inr hm)

theorem aset_append_new {κ α : Type} [DecidableEq κ] (acc : List (κ × α)) (k : κ) (v : α)
    (h : alookup acc k = none) : aset acc k v = acc ++ [(k, v)] := by
  induction acc with
  | nil => rfl
  | cons p rest ih =>
    obtain ⟨k', w⟩ := p
    by_cases hk : k' = k
    · simp [alookup, hk] at h
    · simp only [alookup, if_neg hk] at h
      simp [aset, hk, ih h]

theorem foldl_aset_rebuild {κ α : Type} [DecidableEq κ] :
    ∀ (m acc : List (κ × α)), (m.map Prod.fst).Nodup →
      (∀ k ∈ m.map Prod.fst, alookup acc k = none) →
      m.foldl (fun a p => aset a p.1 p.2) acc = acc ++ m
  | [], acc, _, _ => by simp
  | p :: rest, acc, hnd, hfresh => by
    have hp : alookup acc p.1 = none := hfresh p.1 (by simp)
    rw [List.map_cons, List.nodup_cons] at hnd
    have hfresh' : ∀ k ∈ rest.map Prod.fst, alookup (aset acc p.1 p.2) k = none := by
      intro k hk
      have hkp : p.1 ≠ k := fun he => hnd.1 (he ▸ hk)
      rw [alookup_aset_ne acc p.1 k p.2 hkp]
      exact hfresh k (by simp [hk])
    calc (p :: rest).foldl (fun a q => aset a q.1 q.2) acc
        = rest.foldl (fun a q => aset a q.1 q.2) (aset acc p.1 p.2) := rfl
      _ = aset acc p.1 p.2 ++ rest := foldl_aset_rebuild rest _ hnd.2 hfresh'
      _ = acc ++ p :: rest := by rw [aset_append_new acc p.1 p.2 hp]; simp

/-- Successful head and tail combine under `omapM`. -/
theorem omapM_cons_some {α β : Type} (f : α → Option β) (a : α) (as : List α)
    (b : β) (bs : List β) (ha : f a = some b) (has : omapM f as = some bs) :
    omapM f (a :: as) = some (b :: bs) := by
  simp [omapM, ha, has]

theorem omapM_intKeys {α : Type} :
    ∀ m : List (Int × α),
      omapM (fun p => (pyIntOfStr p.1).map fun k => (k, p.2))
        (m.map fun p => (pyStrInt p.1, p.2)) = some m
  | [] => rfl
  | p :: rest => by
    simp [omapM, pyIntOfStr_pyStrInt, omapM_intKeys rest]

theorem asIntegerLevel_dump {α : Type} (m : List (Int × α))
    (h : (m.map Prod.fst).Nodup) :
    asIntegerLevel (m.map fun p => (pyStrInt p.1, p.2)) = some m := by
  unfold asIntegerLevel
  rw [omapM_intKeys m]
  show some (m.foldl (fun acc p => aset acc p.1 p.2) []) = some m
  rw [foldl_aset_rebuild m [] h (fun k _ => rfl)]
  simp

theorem loadL3_dumpL3 (l : List (Int × Int)) (h : (l.map Prod.fst).Nodup) :
    loadL3 (dumpL3 l) = some l :=
  asIntegerLevel_dump l h

theorem omapM_loadL3 :
    ∀ l : List (Int × List (Int × Int)),
      (∀ p ∈ l, (p.2.map Prod.fst).Nodup) →
      omapM (fun p => (loadL3 p.2).map fun v => (p.1, v)) (dumpL2 l) =
        some (l.map fun p => (pyStrInt p.1, p.2))
  | [], _ => rfl
  | p :: rest, h => by
    have hp := loadL3_dumpL3 p.2 (h p (by simp))
    have hrest := omapM_loadL3 rest fun q hq => h q (by simp [hq])
    show omapM _ ((pyStrInt p.1, dumpL3 p.2) :: dumpL2 rest) = _
    rw [List.map_cons]
    exact omapM_cons_some _ _ _ _ _ (by rw [hp]; rfl) hrest

theorem loadL2_dumpL2 (l : List (Int × List (Int × Int)))
    (houter : (l.map Prod.fst).Nodup)
    (hinner : ∀ p ∈ l, (p.2.map Prod.fst).Nodup) :
    loadL2 (dumpL2 l) = some l := by
  unfold loadL2
  rw [omapM_loadL3 l hinner]
  exact asIntegerLevel_dump l houter

theorem omapM_loadL2 :
    ∀ m : MatchDict,
      (∀ p ∈ m, (p.2.map Prod.fst).Nodup ∧ ∀ q ∈ p.2, (q.2.map Prod.fst).Nodup) →
      omapM (fun p => (loadL2 p.2).map fun v => (p.1, v)) (dumpMatchDict m) =
        some (m.map fun p => (pyStrInt p.1, p.2))
  | [], _ => rfl
  | p :: rest, h => by
    have hp := loadL2_dumpL2 p.2 (h p (by simp)).1 (h p (by simp)).2
    have hrest := omapM_loadL2 rest fun q hq => h q (by simp [hq])
    show omapM _ ((pyStrInt p.1, dumpL2 p.2) :: dumpMatchDict rest) = _
    rw [List.map_cons]
    exact omapM_cons_some _ _ _ _ _ (by rw [hp]; rfl) hrest

/-- Keys are unique at every nesting depth — the representation
invariant of the Python dicts the association lists stand for. -/
def matchDictWF (m : MatchDict) : Prop :=
  (m.map Prod.fst).Nodup ∧
  ∀ p ∈ m, (p.2.map Prod.fst).Nodup ∧ ∀ q ∈ p.2, (q.2.map Prod.fst).Nodup

instance : DecidablePred matchDictWF := fun _ =>
  inferInstanceAs (Decidable (_ ∧ _))

/-- **C9.** Persisting an integer-keyed correspondence map to
`field_match.json` (every key serialized to its decimal string) and
reloading it through `FieldMatcher`'s `as_integer` object hook is a
round trip: the loaded map equals the original, with every dict key at
every nesting depth converted back from string to int. -/
theorem C9_persist_roundtrip (m : MatchDict) (h : matchDictWF m) :
    loadMatchDict (dumpMatchDict m) = some m := by
  unfold loadMatchDict
  rw [omapM_loadL2 m h.2]
  exact asIntegerLevel_dump m h.1

/-- A concrete persisted map for the C9 witness. -/
def mC9 : MatchDict := [(7, [(9, [(1, 2), (3, 4)])]), (-2, [])]

/-- Witness for C9 at a concrete nested map with a negative key. -/
theorem C9_persist_roundtrip_witness :
    matchDictWF mC9 ∧ loadMatchDict (dumpMatchDict mC9) = some mC9 :=
  ⟨by decide, C9_persist_roundtrip mC9 (by decide)⟩

/-! ## C3 — pairs that `FieldMatcher.match` skips -/

/-- The identity and engine of a database — the two attributes the
skip test reads, never mutated by the matcher (only `tables` is). -/
def dbKey (d : Database) : Int × String := (d.id, d.engine)

theorem lookup2_ensureKey (m : MatchDict) (k a b : Int) :
    lookup2 (ensureKey m k) a b = lookup2 m a b := by
  unfold ensureKey
  cases hm : alookup m k with
  | some v => rfl
  | none =>
    unfold lookup2
    rw [alookup_append]
    by_cases ha : k = a
    · subst ha
      rw [hm]
      simp [Option.orElse, alookup]
    · cases hma : alookup m a with
      | some inner => simp [Option.orElse, hma]
      | none => simp [Option.orElse, hma, alookup, ha]

theorem lookup2_set2_ne (m : MatchDict) (a' b' a b : Int) (v : List (Int × Int))
    (h : ¬(a = a' ∧ b = b')) :
    lookup2 (set2 m a' b' v) a b = lookup2 m a b := by
  unfold set2 lookup2
  by_cases ha : a = a'
  · subst ha
    have hb : b ≠ b' := fun hb => h ⟨rfl, hb⟩
    rw [alookup_aupdate_eq]
    cases hma : alookup m a with
    | none => rfl
    | some inner =>
      simp only [Option.map_some', Option.bind]
      exact alookup_aset_ne inner b' b v fun he => hb he.symm
  · rw [alookup_aupdate_ne _ _ _ _ fun he => ha he.symm]

theorem match_databases_keys (s d : Database) :
    (match_databases s d).2.1.id = s.id ∧
    (match_databases s d).2.1.engine = s.engine ∧
    dbKey (match_databases s d).2.2 = dbKey d :=
  ⟨rfl, rfl, rfl⟩

theorem matchDbInner_preserve (samei : Bool) :
    ∀ (ds : List Database) (s : Database) (acc : MatchDict),
      (matchDbInner samei s ds acc).2.1.id = s.id ∧
      (matchDbInner samei s ds acc).2.1.engine = s.engine ∧
      (matchDbInner samei s ds acc).2.2.map dbKey = ds.map dbKey
  | [], _, _ => ⟨rfl, rfl, rfl⟩
  | d :: rest, s, acc => by
    by_cases h : (samei && s.id == d.id || s.engine != d.engine) = true
    · have ih := matchDbInner_preserve samei rest s acc
      simp only [matchDbInner, if_pos h]
      exact ⟨ih.1, ih.2.1, by simp only [List.map_cons, ih.2.2]⟩
    · have ih := matchDbInner_preserve samei rest (match_databases s d).2.1
        (set2 (ensureKey acc s.id) s.id d.id (match_databases s d).1)
      simp only [matchDbInner, if_neg h]
      refine ⟨?_, ?_, ?_⟩
      · rw [ih.1]; rfl
      · rw [ih.2.1]; rfl
      · simp only [List.map_cons, ih.2.2]
        rfl

theorem matchDbInner_lookup_none (samei : Bool) :
    ∀ (ds : List Database) (s : Database) (acc : MatchDict) (a b : Int),
      lookup2 acc a b = none →
      (∀ d ∈ ds, s.id = a → d.id = b →
        (samei && s.id == d.id || s.engine != d.engine) = true) →
      lookup2 (matchDbInner samei s ds acc).1 a b = none
  | [], _, _, _, _, hacc, _ => hacc
  | d :: rest, s, acc, a, b, hacc, hskip => by
    by_cases h : (samei && s.id == d.id || s.engine != d.engine) = true
    · simp only [matchDbInner, if_pos h]
      exact matchDbInner_lookup_none samei rest s acc a b hacc
        fun d' hd' => hskip d' (by simp [hd'])
    · simp only [matchDbInner, if_neg h]
      have hnot : ¬ (s.id = a ∧ d.id = b) := fun hp => h (hskip d (by simp) hp.1 hp.2)
      have hacc₂ :
          lookup2 (set2 (ensureKey acc s.id) s.id d.id (match_databases s d).1) a b = none := by
        rw [lookup2_set2_ne _ _ _ _ _ _ fun hp => hnot ⟨hp.1.symm, hp.2.symm⟩]
        rw [lookup2_ensureKey]
        exact hacc
      refine matchDbInner_lookup_none samei rest (match_databases s d).2.1 _ a b hacc₂ ?_
      intro d' hd' ha hb
      have hid : (match_databases s d).2.1.id = s.id := rfl
      have heng : (match_databases s d).2.1.engine = s.engine := rfl
      rw [hid, heng]
      exact hskip d' (by simp [hd']) (hid ▸ ha) hb

theorem matchDbOuter_lookup_none (samei : Bool) :
    ∀ (srcs dsts : List Database) (acc : MatchDict) (a b : Int),
      lookup2 acc a b = none →
      (∀ s ∈ srcs, ∀ d ∈ dsts, s.id = a → d.id = b →
        (samei && s.id == d.id || s.engine != d.engine) = true) →
      lookup2 (matchDbOuter samei srcs dsts acc) a b = none
  | [], _, _, _, _, hacc, _ => hacc
  | s :: srest, dsts, acc, a, b, hacc, hskip => by
    simp only [matchDbOuter]
    have hinner := matchDbInner_lookup_none samei dsts s acc a b hacc
      fun d hd => hskip s (by simp) d hd
    refine matchDbOuter_lookup_none samei srest _ _ a b hinner ?_
    intro s' hs' d' hd' ha hb
    have hpres := (matchDbInner_preserve samei dsts s acc).2.2
    have hmem : dbKey d' ∈ dsts.map dbKey := by
      rw [← hpres]
      exact List.mem_map_of_mem _ hd'
    obtain ⟨d, hd, hkey⟩ := List.mem_map.mp hmem
    have hdid : d.id = d'.id := congrArg Prod.fst hkey
    have hdeng : d.engine = d'.engine := congrArg Prod.snd hkey
    have := hskip s' (by simp [hs']) d hd ha (by rw [hdid]; exact hb)
    rw [hdid, hdeng] at this
    exact this

/-- **C3.** For every pair of databases the matcher walks, a pair whose
engines differ, and — when source and destination are the same instance —
a pair with equal ids, is skipped by the `continue`: no correspondence
entry `match[s.id][d.id]` is ever produced for it (database ids being
unique within each snapshot, as the backend guarantees). -/
theorem C3_cross_engine_and_self_pairs_skipped
    (src dst : MetabaseDataState)
    (hsrc : (src.databases.map Database.id).Nodup)
    (hdst : (dst.databases.map Database.id).Nodup) :
    ∀ s ∈ src.databases, ∀ d ∈ dst.databases,
      s.engine ≠ d.engine ∨ (sameInstance src dst = true ∧ s.id = d.id) →
      lookup2 (FieldMatcher.match' src dst none) s.id d.id = none := by
  intro s hs d hd hcond
  show lookup2 (computeMatch src dst) s.id d.id = none
  unfold computeMatch
  apply matchDbOuter_lookup_none (sameInstance src dst) src.databases dst.databases []
    s.id d.id rfl
  intro s' hs' d' hd' ha hb
  have hseq : s' = s := List.inj_on_of_nodup_map hsrc hs' hs ha
  have hdeq : d' = d := List.inj_on_of_nodup_map hdst hd' hd hb
  subst hseq
  subst hdeq
  rcases hcond with heng | ⟨hsame, hid⟩
  · have : (s'.engine != d'.engine) = true := bne_iff_ne.mpr heng
    simp [this]
  · have : (s'.id == d'.id) = true := beq_iff_eq.mpr hid
    simp [hsame, this]

/-- A source snapshot with one `postgres` database. -/
def srcC3 : MetabaseDataState := ⟨"alpha", true, [⟨"A", 1, "postgres", []⟩], [], []⟩

/-- A destination snapshot with one `mysql` database. -/
def dstC3 : MetabaseDataState := ⟨"beta", true, [⟨"B", 2, "mysql", []⟩], [], []⟩

/-- Witness for C3: the cross-engine pair contributes no entry. -/
theorem C3_cross_engine_and_self_pairs_skipped_witness :
    lookup2 (FieldMatcher.match' srcC3 dstC3 none) 1 2 = none :=
  C3_cross_engine_and_self_pairs_skipped srcC3 dstC3 (by decide) (by decide)
    ⟨"A", 1, "postgres", []⟩ (by decide) ⟨"B", 2, "mysql", []⟩ (by decide)
    (Or.inl (by decide))

/-! ## C4 — `remap_queries` -/

/-- The specified relation between one template tag and its remapped
form: a missing or empty dimension is untouched; otherwise, writing
`idv` for the array element at index 1, an entry in the correspondence
map replaces that element with the mapped destination field id, and a
missing entry leaves the tag unchanged and logs `idv` among the
warnings. -/
def TagSpec (m : MatchDict) (sdb : Option Int) (ddb : Int) (ws : List JLite)
    (tg tg' : TemplateTag) : Prop :=
  (tg.dimension = none → tg' = tg) ∧
  (tg.dimension = some [] → tg' = tg) ∧
  (∀ l idv, tg.dimension = some l → l[1]? = some idv →
     (∀ v, lookup3 m sdb ddb idv = some v →
        tg'.dimension = some (l.set 1 (JLite.int v))) ∧
     (lookup3 m sdb ddb idv = none → tg' = tg ∧ idv ∈ ws))

/-- The specified relation between one card and its remapped form: a
card without a `dataset_query` passes through; otherwise the tags are
rewritten pointwise per `TagSpec` and the query's database id becomes
the resolved destination database id unconditionally. -/
def CardSpec (m : MatchDict) (ddb : Int) (ws : List JLite) (c c' : Card) : Prop :=
  (c.dataset_query = none → c' = c) ∧
  (∀ dq nq, c.dataset_query = some dq → dq.native = some nq →
     ∃ tags',
       List.Forall₂ (fun p q => q.1 = p.1 ∧ TagSpec m dq.database ddb ws p.2 q.2)
         nq.templateTags tags' ∧
       c' = ⟨c.name, some ⟨some ⟨nq.query, tags'⟩, some ddb⟩⟩)

theorem TagSpec_mono (m : MatchDict) (sdb : Option Int) (ddb : Int)
    (ws ws' : List JLite) (tg tg' : TemplateTag) (hsub : ws ⊆ ws')
    (h : TagSpec m sdb ddb ws tg tg') : TagSpec m sdb ddb ws' tg tg' := by
  refine ⟨h.1, h.2.1, ?_⟩
  intro l idv hl hidv
  refine ⟨(h.2.2 l idv hl hidv).1, ?_⟩
  intro hnone
  obtain ⟨heq, hmem⟩ := (h.2.2 l idv hl hidv).2 hnone
  exact ⟨heq, hsub hmem⟩

theorem remapTag_spec (m : MatchDict) (sdb : Option Int) (ddb : Int)
    (tg : TemplateTag) (hwf : tagWF tg = true) :
    ∃ tg' w, remapTag m sdb ddb tg = .ok (tg', w) ∧ TagSpec m sdb ddb w tg tg' := by
  obtain ⟨dim⟩ := tg
  cases dim with
  | none =>
    refine ⟨⟨none⟩, [], rfl, ?_, ?_, ?_⟩
    · intro _; rfl
    · intro hc; cases hc
    · intro l idv hl; cases hl
  | some l =>
    cases l with
    | nil =>
      refine ⟨⟨some []⟩, [], rfl, ?_, ?_, ?_⟩
      · intro hc; cases hc
      · intro _; rfl
      · intro l idv hl hidv
        cases hl
        cases hidv
    | cons x l₀ =>
      have hlen : 2 ≤ (x :: l₀).length := by
        simpa [tagWF, List.isEmpty_iff] using hwf
      obtain ⟨idv, hidv⟩ : ∃ idv, (x :: l₀)[1]? = some idv :=
        ⟨(x :: l₀)[1], List.getElem?_eq_getElem hlen⟩
      cases hfind : lookup3 m sdb ddb idv with
      | some v =>
        refine ⟨⟨some ((x :: l₀).set 1 (JLite.int v))⟩, [],
          by simp [remapTag, hidv, hfind], ?_, ?_, ?_⟩
        · intro hc; cases hc
        · intro hc; cases hc
        · intro l idv' hl hidv'
          cases hl
          rw [hidv] at hidv'
          cases hidv'
          constructor
          · intro v' hv'
            rw [hfind] at hv'
            cases hv'
            rfl
          · intro hnone
            rw [hfind] at hnone
            cases hnone
      | none =>
        refine ⟨⟨some (x :: l₀)⟩, [idv],
          by simp [remapTag, hidv, hfind], ?_, ?_, ?_⟩
        · intro _; rfl
        · intro hc; cases hc
        · intro l idv' hl hidv'
          cases hl
          rw [hidv] at hidv'
          cases hidv'
          constructor
          · intro v' hv'
            rw [hfind] at hv'
            cases hv'
          · intro _
            exact ⟨rfl, by simp⟩

theorem remapTagList_spec (m : MatchDict) (sdb : Option Int) (ddb : Int) :
    ∀ tags : List (String × TemplateTag),
      (∀ p ∈ tags, tagWF p.2 = true) →
      ∃ tags' ws, remapTagList m sdb ddb tags = .ok (tags', ws) ∧
        List.Forall₂ (fun p q => q.1 = p.1 ∧ TagSpec m sdb ddb ws p.2 q.2) tags tags'
  | [], _ => ⟨[], [], rfl, List.Forall₂.nil⟩
  | (k, tg) :: rest, hwf => by
    obtain ⟨tg', w, htg, hspec⟩ := remapTag_spec m sdb ddb tg (hwf (k, tg) (by simp))
    obtain ⟨rest', ws, hrest, hf⟩ :=
      remapTagList_spec m sdb ddb rest fun p hp => hwf p (by simp [hp])
    refine ⟨(k, tg') :: rest', w ++ ws, ?_, ?_⟩
    · simp only [remapTagList, htg, hrest]
      rfl
    · refine List.Forall₂.cons ⟨rfl, TagSpec_mono _ _ _ _ _ _ _ ?_ hspec⟩ ?_
      · exact List.subset_append_left w ws
      · refine hf.imp ?_
        intro p q hpq
        exact ⟨hpq.1, TagSpec_mono _ _ _ _ _ _ _ (List.subset_append_right w ws) hpq.2⟩

theorem remapCard_spec (m : MatchDict) (ddb : Int) (c : Card) (hwf : cardWF c = true) :
    ∃ c' ws, remapCard m ddb c = .ok (c', ws) ∧ CardSpec m ddb ws c c' := by
  obtain ⟨nm, dqo⟩ := c
  cases dqo with
  | none =>
    refine ⟨⟨nm, none⟩, [], rfl, ?_, ?_⟩
    · intro _; rfl
    · intro dq nq hdq _; cases hdq
  | some dq =>
    obtain ⟨nqo, dbo⟩ := dq
    cases nqo with
    | none => simp [cardWF] at hwf
    | some nq =>
      have htags : ∀ p ∈ nq.templateTags, tagWF p.2 = true := by
        simpa [cardWF, List.all_eq_true] using hwf
      obtain ⟨tags', ws, hrtl, hf⟩ := remapTagList_spec m dbo ddb nq.templateTags htags
      refine ⟨⟨nm, some ⟨some ⟨nq.query, tags'⟩, some ddb⟩⟩, ws, ?_, ?_, ?_⟩
      · simp only [remapCard]
        rw [hrtl]
        rfl
      · intro hc; cases hc
      · intro dq' nq' hdq' hnq'
        cases hdq'
        cases hnq'
        exact ⟨tags', hf, rfl⟩

theorem CardSpec_mono (m : MatchDict) (ddb : Int) (ws ws' : List JLite)
    (c c' : Card) (hsub : ws ⊆ ws') (h : CardSpec m ddb ws c c') :
    CardSpec m ddb ws' c c' := by
  refine ⟨h.1, ?_⟩
  intro dq nq hdq hnq
  obtain ⟨tags', hf, hc⟩ := h.2 dq nq hdq hnq
  refine ⟨tags', ?_, hc⟩
  refine hf.imp ?_
  intro p q hpq
  exact ⟨hpq.1, TagSpec_mono _ _ _ _ _ _ _ hsub hpq.2⟩

/-- **C4.** `remap_queries` never lets an exception escape on well-formed
queries: every query with a structured `dataset_query` has each
template-tag dimension rewritten to the mapped destination field id when
the correspondence map has an entry, left unchanged with a warning when
it has none, and its database id rewritten to the resolved destination
database id unconditionally; queries without a `dataset_query` pass
through untouched. -/
theorem C4_remap_queries (m : MatchDict) (ddb : Int) :
    ∀ qs : List (Int × Card),
      (∀ p ∈ qs, cardWF p.2 = true) →
      ∃ qs' ws, remap_queries m ddb qs = .ok (qs', ws) ∧
        List.Forall₂ (fun p q => q.1 = p.1 ∧ CardSpec m ddb ws p.2 q.2) qs qs'
  | [], _ => ⟨[], [], rfl, List.Forall₂.nil⟩
  | (k, c) :: rest, hwf => by
    obtain ⟨c', w, hc, hcspec⟩ := remapCard_spec m ddb c (hwf (k, c) (by simp))
    obtain ⟨rest', ws, hrest, hf⟩ :=
      C4_remap_queries m ddb rest fun p hp => hwf p (by simp [hp])
    refine ⟨(k, c') :: rest', w ++ ws, ?_, ?_⟩
    · simp only [remap_queries, hc, hrest]
      rfl
    · refine List.Forall₂.cons ⟨rfl, CardSpec_mono _ _ _ _ _ _ (List.subset_append_left w ws) hcspec⟩ ?_
      refine hf.imp ?_
      intro p q hpq
      exact ⟨hpq.1, CardSpec_mono _ _ _ _ _ _ (List.subset_append_right w ws) hpq.2⟩

/-- A correspondence map `10 → 20 → {5 ↦ 55}`. -/
def mC4 : MatchDict := [(10, [(20, [(5, 55)])])]

/-- A query whose first tag's field id `5` is mapped and whose second
tag's field id `6` is not. -/
def qsC4 : List (Int × Card) :=
  [(1, ⟨some "card one",
    some ⟨some ⟨"SELECT 1",
      [("t1", ⟨some [JLite.str "field", JLite.int 5, JLite.null]⟩),
       ("t2", ⟨some [JLite.str "field", JLite.int 6]⟩)]⟩, some 10⟩⟩)]

/-- Witness for C4 at the concrete query set. -/
theorem C4_remap_queries_witness :
    (∀ p ∈ qsC4, cardWF p.2 = true) ∧
    ∃ qs' ws, remap_queries mC4 20 qsC4 = .ok (qs', ws) ∧
      List.Forall₂ (fun p q => q.1 = p.1 ∧ CardSpec mC4 20 ws p.2 q.2) qsC4 qs' :=
  ⟨by decide, C4_remap_queries mC4 20 qsC4 (by decide)⟩

/-! ## C5 — `check_tables` and the abort in `create_and_link_dashboard` -/

/-- A card on which the `check_tables` loop body runs to completion: an
unnamed card is skipped, a named one must have the `dataset_query` /
`native` keys and a `FROM` clause the regex extracts. -/
def namedExtractOk (c : Card) : Bool :=
  match c.name with
  | none => true
  | some s =>
    if s = "" then true
    else
      match c.dataset_query with
      | none => false
      | some dq =>
        match dq.native with
        | none => false
        | some nq => (reSearchFrom nq.query).isSome

/-- A named card whose extracted `FROM` table is, after normalization,
absent from the destination's unified display-name keys. -/
def namedMissingTable (toName : List (String × String)) (c : Card) : Bool :=
  match c.name with
  | none => false
  | some s =>
    if s = "" then false
    else
      match c.dataset_query with
      | none => false
      | some dq =>
        match dq.native with
        | none => false
        | some nq =>
          match reSearchFrom nq.query with
          | none => false
          | some tbl => !((unify_key_names toName).any fun p => p.1 = unify_str tbl)

theorem checkTablesGo_cons (toName : List (String × String)) (k : Int) (c : Card)
    (rest : List (Int × Card)) (valid : Bool) (hok : namedExtractOk c = true) :
    checkTablesGo toName ((k, c) :: rest) valid =
      checkTablesGo toName rest (valid && !namedMissingTable toName c) := by
  obtain ⟨nmo, dqo⟩ := c
  cases nmo with
  | none => simp [checkTablesGo, namedMissingTable]
  | some s =>
    by_cases hs : s = ""
    · simp [checkTablesGo, namedMissingTable, hs]
    · cases dqo with
      | none => simp [namedExtractOk, hs] at hok
      | some dq =>
        obtain ⟨nqo, dbo⟩ := dq
        cases nqo with
        | none => simp [namedExtractOk, hs] at hok
        | some nq =>
          cases hext : reSearchFrom nq.query with
          | none => simp [namedExtractOk, hs, hext] at hok
          | some tbl =>
            cases hmem : (unify_key_names toName).any fun p => p.1 = unify_str tbl with
            | true => simp [checkTablesGo, namedMissingTable, hs, hext, hmem]
            | false => simp [checkTablesGo, namedMissingTable, hs, hext, hmem]

theorem checkTablesGo_eval (toName : List (String × String)) :
    ∀ (qs : List (Int × Card)) (valid : Bool),
      (∀ p ∈ qs, namedExtractOk p.2 = true) →
      checkTablesGo toName qs valid =
        .ok (valid && !(qs.any fun p => namedMissingTable toName p.2))
  | [], valid, _ => by simp [checkTablesGo]
  | (k, c) :: rest, valid, hwf => by
    rw [checkTablesGo_cons toName k c rest valid (hwf (k, c) (by simp))]
    rw [checkTablesGo_eval toName rest _ fun p hp => hwf p (by simp [hp])]
    congr 1
    simp [Bool.and_assoc]

/-- **C5.** When some named query's raw SQL references a table whose
normalized name is absent from the destination (and the check can read
every named query), `check_tables` returns `False` and
`create_and_link_dashboard` aborts that dashboard's clone with only the
`Cannot copy …` warning: the destination receives no dashboard,
collection or card write. -/
theorem C5_missing_table_aborts (toName : List (String × String)) (m : MatchDict)
    (ddb : Int) (qs : List (Int × Card))
    (hwf : ∀ p ∈ qs, namedExtractOk p.2 = true)
    (hmiss : (qs.any fun p => namedMissingTable toName p.2) = true) :
    check_tables toName qs = .ok false ∧
    create_and_link_dashboard toName m ddb qs = .ok [CloneEvent.warnedCannotCopy] := by
  have hck : check_tables toName qs = .ok false := by
    unfold check_tables
    rw [checkTablesGo_eval toName qs true hwf, hmiss]
    rfl
  refine ⟨hck, ?_⟩
  unfold create_and_link_dashboard
  rw [hck]
  rfl

/-- The destination's `to_name` dict (display name → name). -/
def toNameC5 : List (String × String) := [("Orders", "orders")]

/-- A dashboard with one SQL card referencing a table (`customers`)
that the destination lacks. -/
def qsC5 : List (Int × Card) :=
  [(1, ⟨some "sql card",
    some ⟨some ⟨"SELECT * FROM customers WHERE pm_domain_name = 'x'", []⟩, some 10⟩⟩)]

/-- Witness for C5 at the concrete dashboard. -/
theorem C5_missing_table_aborts_witness :
    check_tables toNameC5 qsC5 = .ok false ∧
    create_and_link_dashboard toNameC5 [] 20 qsC5 = .ok [CloneEvent.warnedCannotCopy] :=
  C5_missing_table_aborts toNameC5 [] 20 qsC5 (by decide) (by decide)

/-! ## C7 — `get_clean_queries` -/

theorem litStepP_some (lit cs : List Char)
    (next : List Char → Option (Nat × String)) (p : Nat × String)
    (h : litStepP lit cs next = some p) : lit.isPrefixOf cs = true := by
  unfold litStepP at h
  split at h
  · assumption
  · cases h

theorem strContainsSub_of_head (sub cs : List Char)
    (h : sub.isPrefixOf cs = true) : strContainsSub sub cs = true := by
  cases cs with
  | nil =>
    cases sub with
    | nil => rfl
    | cons a as => simp [List.isPrefixOf] at h
  | cons c rest => simp [strContainsSub, h]

theorem strContainsSub_cons_of_tail (sub : List Char) (c : Char) (rest : List Char)
    (h : strContainsSub sub rest = true) : strContainsSub sub (c :: rest) = true := by
  simp [strContainsSub, h]

/-- A successful greedy optional backtick either matched (and ran the
continuation on the tail) or fell through to the continuation in place. -/
theorem optBacktickP_some (cs : List Char) (next : List Char → Option (Nat × String))
    (p : Nat × String) (h : optBacktickP cs next = some p) :
    (∃ c rest q, cs = c :: rest ∧ next rest = some q) ∨ ∃ q, next cs = some q := by
  unfold optBacktickP at h
  split at h
  next rest' =>
    cases hfe : next rest' with
    | some q => exact Or.inl ⟨'`', rest', q, rfl, hfe⟩
    | none =>
      rw [hfe] at h
      simp only [Option.map_none', Option.orElse] at h
      exact Or.inr ⟨p, h⟩
  next => exact Or.inr ⟨p, h⟩

/-- A successful anchored match of the predicate pattern implies the
literal `pm_domain_name` occurs in the text. -/
theorem matchPmAt_some_contains (cs : List Char) (p : Nat × String)
    (h : matchPmAt cs = some p) :
    strContainsSub "pm_domain_name".data cs = true := by
  unfold matchPmAt at h
  rcases optBacktickP_some cs _ p h with ⟨c, rest, q, hcs, hq⟩ | ⟨q, hq⟩
  · subst hcs
    exact strContainsSub_cons_of_tail _ _ _
      (strContainsSub_of_head _ _ (litStepP_some _ _ _ _ hq))
  · exact strContainsSub_of_head _ _ (litStepP_some _ _ _ _ hq)

theorem strContainsSub_tail (sub : List Char) (c : Char) (rest : List Char)
    (h : strContainsSub sub (c :: rest) = false) : strContainsSub sub rest = false := by
  unfold strContainsSub at h
  simpa using (Bool.or_eq_false_iff.mp h).2

theorem litStep_some (lit cs : List Char) (next : List Char → Option Nat) (n : Nat)
    (h : litStep lit cs next = some n) : lit.isPrefixOf cs = true := by
  unfold litStep at h
  split at h
  · assumption
  · cases h

/-- The plain-count analogue of `optBacktickP_some` for the first
(database-name) regex. -/
theorem optBacktick_some (cs : List Char) (next : List Char → Option Nat)
    (n : Nat) (h : optBacktick cs next = some n) :
    (∃ c rest m, cs = c :: rest ∧ next rest = some m) ∨ ∃ m, next cs = some m := by
  unfold optBacktick at h
  split at h
  next rest' =>
    cases hfe : next rest' with
    | some q => exact Or.inl ⟨'`', rest', q, rfl, hfe⟩
    | none =>
      rw [hfe] at h
      simp only [Option.map_none', Option.orElse] at h
      exact Or.inr ⟨n, h⟩
  next => exact Or.inr ⟨n, h⟩

/-- A successful anchored match of the database-name pattern implies the
name occurs literally in the text. -/
theorem matchDbNameAt_some_contains (name cs : List Char) (n : Nat)
    (h : matchDbNameAt name cs = some n) :
    strContainsSub name cs = true := by
  unfold matchDbNameAt at h
  rcases optBacktick_some cs _ n h with ⟨c, rest, m, hcs, hm⟩ | ⟨m, hm⟩
  · subst hcs
    exact strContainsSub_cons_of_tail _ _ _
      (strContainsSub_of_head _ _ (litStep_some _ _ _ _ hm))
  · exact strContainsSub_of_head _ _ (litStep_some _ _ _ _ hm)

/-- The database-name deletion scan leaves any text without the literal
name untouched. -/
theorem subScanF_dbname_id (name : List Char) :
    ∀ (fuel : Nat) (cs : List Char),
      strContainsSub name cs = false →
      subScanF (fun cs => (matchDbNameAt name cs).map fun n => (n, ([] : List Char)))
        fuel cs = cs
  | 0, _, _ => rfl
  | _ + 1, [], _ => rfl
  | fuel + 1, c :: rest, h => by
    have hmatch : matchDbNameAt name (c :: rest) = none := by
      cases hm : matchDbNameAt name (c :: rest) with
      | none => rfl
      | some n =>
        rw [matchDbNameAt_some_contains name (c :: rest) n hm] at h
        cases h
    simp only [subScanF, hmatch, Option.map_none']
    rw [subScanF_dbname_id name fuel rest (strContainsSub_tail _ _ _ h)]

theorem strContainsSub_drop (sub : List Char) :
    ∀ (n : Nat) (cs : List Char), strContainsSub sub cs = false →
      strContainsSub sub (cs.drop n) = false
  | 0, _, h => h
  | _ + 1, [], h => h
  | n + 1, c :: rest, h =>
    strContainsSub_drop sub n rest (strContainsSub_tail sub c rest h)

/-- The predicate-rewrite scan leaves any text without the literal
`pm_domain_name` untouched. -/
theorem subScanF_pm_id (col cid : String) :
    ∀ (fuel : Nat) (cs : List Char),
      strContainsSub "pm_domain_name".data cs = false →
      subScanF (fun cs => (matchPmAt cs).map fun p => (p.1, pmReplacement col cid p.2))
        fuel cs = cs
  | 0, _, _ => rfl
  | _ + 1, [], _ => rfl
  | fuel + 1, c :: rest, h => by
    have hmatch : matchPmAt (c :: rest) = none := by
      cases hm : matchPmAt (c :: rest) with
      | none => rfl
      | some p =>
        rw [matchPmAt_some_contains (c :: rest) p hm] at h
        cases h
    simp only [subScanF, hmatch, Option.map_none']
    rw [subScanF_pm_id col cid fuel rest (strContainsSub_tail _ _ _ h)]

/-- **C7 (counterexample).** The claim says `owner_id = '<id>'`
predicates in the raw SQL, and literal occurrences of the source
database name, are substituted with text carrying the destination
tenant's identifier.  With `client_type = "owner_id"`, source database
name `analytics` and destination identifier `xyz`, a query whose SQL
carries both shapes comes back with the `owner_id = 'abc'` predicate
verbatim — the regex only ever matches `pm_domain_name` predicates, so
the source identifier `abc` survives — and with `analytics.` deleted
rather than replaced: the destination identifier `xyz` appears nowhere
in the output. -/
def qsC7 : List (Int × Card) :=
  [(1, ⟨some "c",
    some ⟨some ⟨"SELECT * FROM analytics.t WHERE owner_id = 'abc'", []⟩, some 1⟩⟩)]

/-- What `get_clean_queries` actually returns on `qsC7`: the database
name and the character after it are gone, the predicate is untouched. -/
def qsC7out : List (Int × Card) :=
  [(1, ⟨some "c",
    some ⟨some ⟨"SELECT * FROM t WHERE owner_id = 'abc'", []⟩, some 1⟩⟩)]

theorem C7_counterexample_owner_id_untouched :
    get_clean_queries qsC7 "analytics" (some "owner_id") (some "xyz") = .ok qsC7out ∧
    strContainsSub "owner_id = 'abc'".data
      "SELECT * FROM t WHERE owner_id = 'abc'".data = true ∧
    strContainsSub "xyz".data
      "SELECT * FROM t WHERE owner_id = 'abc'".data = false ∧
    strContainsSub "analytics".data
      "SELECT * FROM t WHERE owner_id = 'abc'".data = false :=
  ⟨by decide, by decide, by decide, by decide⟩

/-- A query whose SQL carries both rewritable shapes: a qualified
`analytics.` table reference and a `pm_domain_name` predicate. -/
def qsC7both : List (Int × Card) :=
  [(1, ⟨some "c",
    some ⟨some ⟨"SELECT * FROM analytics.t WHERE pm_domain_name = 'abc'", []⟩, some 1⟩⟩)]

/-- The output of `get_clean_queries` on `qsC7both`: the database name
and the following character deleted, the predicate rewritten onto the
`client_type` column with the destination identifier. -/
def qsC7bothOut : List (Int × Card) :=
  [(1, ⟨some "c",
    some ⟨some ⟨"SELECT * FROM t WHERE `owner_id` = 'xyz'", []⟩, some 1⟩⟩)]

/-- **C7 (amended).** `get_clean_queries` returns the queries untouched
in enterprise mode (i), raises `ElementNotFound` when `client_id` is
missing (ii) or `client_type` is unrecognized (iii); the
tenant-predicate rewrite never alters SQL that does not contain the
literal `pm_domain_name` — in particular `owner_id = '<id>'` predicates
and all shapes its regex does not recognize stay unchanged, without
error (iv); the database-name rewrite never alters SQL that does not
contain the name literally (v); where the name does occur — bare or
backtick-quoted — it is deleted together with the one following
character that the unescaped trailing `.` of its regex consumes (vi, at
the attested SQL texts); a `pm_domain_name` predicate — backtick-quoted
equality or bare inequality — is rewritten to a backticked predicate on
the column selected by `client_type`, carrying the destination tenant's
identifier (vii, at the attested SQL texts); and the two rewrites
compose on a full query list (viii, at the attested query). -/
theorem C7_clean_queries_behaviour :
    (∀ (qs : List (Int × Card)) (old : String) (cid : Option String),
      get_clean_queries qs old (some "enterprise") cid = .ok qs) ∧
    (∀ (qs : List (Int × Card)) (old : String) (ct : Option String),
      ct ≠ some "enterprise" →
      get_clean_queries qs old ct none = .error .elementNotFound) ∧
    (∀ (qs : List (Int × Card)) (old cid : String) (ct : Option String),
      ct ≠ some "enterprise" → ct ≠ some "pm_domain_name" → ct ≠ some "owner_id" →
      get_clean_queries qs old ct (some cid) = .error .elementNotFound) ∧
    (∀ (col cid s : String),
      strContainsSub "pm_domain_name".data s.data = false →
      pySubPm col cid s = s) ∧
    (∀ (old s : String),
      strContainsSub old.data s.data = false →
      pySubDbName old s = s) ∧
    (pySubDbName "analytics" "SELECT * FROM analytics.orders" =
        "SELECT * FROM orders" ∧
      pySubDbName "analytics" "SELECT * FROM `analytics`.orders" =
        "SELECT * FROM orders") ∧
    (pySubPm "owner_id" "xyz" "WHERE `pm_domain_name` = 'abc' AND x" =
        "WHERE `owner_id` = 'xyz' AND x" ∧
      pySubPm "pm_domain_name" "xyz" "WHERE pm_domain_name != 'abc'" =
        "WHERE `pm_domain_name` != 'xyz'") ∧
    get_clean_queries qsC7both "analytics" (some "owner_id") (some "xyz") =
      .ok qsC7bothOut := by
  refine ⟨?_, ?_, ?_, ?_, ?_, by decide, by decide, by decide⟩
  · intro qs old cid
    unfold get_clean_queries
    rw [if_pos rfl]
  · intro qs old ct h
    unfold get_clean_queries
    rw [if_neg h]
  · intro qs old cid ct h1 h2 h3
    unfold get_clean_queries
    rw [if_neg h1]
    split <;> simp_all
  · intro col cid s h
    unfold pySubPm pySub
    rw [subScanF_pm_id col cid s.data.length s.data h]
  · intro old s h
    unfold pySubDbName pySub
    rw [subScanF_dbname_id old.data s.data.length s.data h]

/-- Witness for the amended C7, discharging each hypothesis at concrete
inputs. -/
theorem C7_clean_queries_behaviour_witness :
    get_clean_queries qsC7 "srcdb" (some "enterprise") none = .ok qsC7 ∧
    get_clean_queries qsC7 "srcdb" (some "owner_id") none = .error .elementNotFound ∧
    get_clean_queries qsC7 "srcdb" (some "bogus") (some "xyz") = .error .elementNotFound ∧
    pySubPm "owner_id" "xyz" "WHERE owner_id = 'abc'" = "WHERE owner_id = 'abc'" ∧
    pySubDbName "analytics" "SELECT 1" = "SELECT 1" :=
  ⟨C7_clean_queries_behaviour.1 qsC7 "srcdb" none,
   C7_clean_queries_behaviour.2.1 qsC7 "srcdb" (some "owner_id") (by decide),
   C7_clean_queries_behaviour.2.2.1 qsC7 "srcdb" "xyz" (some "bogus")
     (by decide) (by decide) (by decide),
   C7_clean_queries_behaviour.2.2.2.1 "owner_id" "xyz" "WHERE owner_id = 'abc'"
     (by decide),
   C7_clean_queries_behaviour.2.2.2.2.1 "analytics" "SELECT 1" (by decide)⟩

end Metamatiob
